import Mathlib

/-
Verification of the zengo synchronization service (src/zengo/models.py and
src/zengo/service.py) against its natural-language specification.

The Python source is shallowly embedded: Django model rows become Lean
structures, the database becomes an explicit `DB` record threaded through
each operation, Django's `update_or_create` becomes an explicit
lookup-then-update-or-insert on the row lists, and Python exceptions become
an `Except PyErr` result.  External collaborators (the Zenpy remote client
and the Django auth user table) are abstracted as an `Env` record of
deterministic lookup functions, exactly as wide as the calls the source
makes on them.
-/

set_option autoImplicit false

deriving instance DecidableEq for Except

namespace Zengo

/-! ## A model of Python JSON values and `json.loads`

`store_event` calls `json.loads` on the raw payload and `process_event`
re-parses it through the `Event.json` property.  JSON numbers are modelled
as integers only (the payloads this service documents carry integer ids);
string escapes are modelled for the common single-character escapes. -/

inductive Json where
  | null
  | bool (b : Bool)
  | num (n : Int)
  | str (s : String)
  | arr (xs : List Json)
  | obj (kvs : List (String × Json))

/-- Python exceptions that the embedded code can raise. -/
inductive PyErr where
  | validationError (msg : String)
  | valueError (msg : String)
  | typeError (msg : String)
  | keyError (msg : String)
  | attributeError (msg : String)
  | integrityError
  | recordNotFound

deriving DecidableEq

def isWs (c : Char) : Bool :=
  c = ' ' || c = '\t' || c = '\n' || c = '\r'

def skipWs : List Char → List Char
  | [] => []
  | c :: cs => if isWs c then skipWs cs else c :: cs

def takeDigits : List Char → List Char × List Char
  | [] => ([], [])
  | c :: cs =>
    if c.isDigit then
      let (ds, rest) := takeDigits cs
      (c :: ds, rest)
    else ([], c :: cs)

def digitsVal (ds : List Char) : Nat :=
  ds.foldl (fun a c => a * 10 + (c.toNat - 48)) 0

def unescapeChar (c : Char) : Char :=
  if c = 'n' then '\n' else if c = 't' then '\t' else if c = 'r' then '\r' else c

/-- Parse the body of a JSON string literal (the opening quote already
consumed), returning the contents and the remaining characters. -/
def takeStringBody : List Char → Option (List Char × List Char)
  | [] => none
  | c :: cs =>
    if c = '"' then some ([], cs)
    else if c = '\\' then
      match cs with
      | [] => none
      | e :: cs' =>
        match takeStringBody cs' with
        | some (s, r) => some (unescapeChar e :: s, r)
        | none => none
    else
      match takeStringBody cs with
      | some (s, r) => some (c :: s, r)
      | none => none

/-- Check that `lit` is a prefix of the input and return the remainder. -/
def takeLit : List Char → List Char → Option (List Char)
  | [], cs => some cs
  | _, [] => none
  | l :: ls, c :: cs => if l = c then takeLit ls cs else none

mutual

/-- Fuel-indexed recursive-descent model of Python `json.loads`. -/
def jparseVal : Nat → List Char → Option (Json × List Char)
  | 0, _ => none
  | Nat.succ f, cs =>
    match skipWs cs with
    | [] => none
    | c :: cs' =>
      if c = 'n' then
        match takeLit ['u', 'l', 'l'] cs' with
        | some r => some (Json.null, r)
        | none => none
      else if c = 't' then
        match takeLit ['r', 'u', 'e'] cs' with
        | some r => some (Json.bool true, r)
        | none => none
      else if c = 'f' then
        match takeLit ['a', 'l', 's', 'e'] cs' with
        | some r => some (Json.bool false, r)
        | none => none
      else if c = '"' then
        match takeStringBody cs' with
        | some (s, r) => some (Json.str (String.mk s), r)
        | none => none
      else if c = '-' then
        match takeDigits cs' with
        | ([], _) => none
        | (ds, r) => some (Json.num (-(digitsVal ds : Int)), r)
      else if c.isDigit then
        match takeDigits (c :: cs') with
        | ([], _) => none
        | (ds, r) => some (Json.num (digitsVal ds : Int), r)
      else if c = '[' then
        match skipWs cs' with
        | ']' :: r => some (Json.arr [], r)
        | cs'' => jparseArrItems f cs''
      else if c = '\x7b' then
        match skipWs cs' with
        | '\x7d' :: r => some (Json.obj [], r)
        | cs'' => jparseObjItems f cs''
      else none

def jparseArrItems : Nat → List Char → Option (Json × List Char)
  | 0, _ => none
  | Nat.succ f, cs =>
    match jparseVal f cs with
    | none => none
    | some (v, r) =>
      match skipWs r with
      | ',' :: r' =>
        match jparseArrItems f r' with
        | some (Json.arr xs, r'') => some (Json.arr (v :: xs), r'')
        | _ => none
      | ']' :: r' => some (Json.arr [v], r')
      | _ => none

def jparseObjItems : Nat → List Char → Option (Json × List Char)
  | 0, _ => none
  | Nat.succ f, cs =>
    match skipWs cs with
    | '"' :: cs' =>
      match takeStringBody cs' with
      | none => none
      | some (k, r) =>
        match skipWs r with
        | ':' :: r' =>
          match jparseVal f r' with
          | none => none
          | some (v, r'') =>
            match skipWs r'' with
            | ',' :: r3 =>
              match jparseObjItems f r3 with
              | some (Json.obj kvs, r4) => some (Json.obj ((String.mk k, v) :: kvs), r4)
              | _ => none
            | '\x7d' :: r3 => some (Json.obj [(String.mk k, v)], r3)
            | _ => none
        | _ => none
    | _ => none

end

/-- Model of Python `json.loads`: parse one JSON value and require only
whitespace to follow. A parse failure is a `ValueError`. -/
def jsonLoads (s : String) : Except PyErr Json :=
  match jparseVal (s.length + 2) s.data with
  | some (v, r) =>
    match skipWs r with
    | [] => Except.ok v
    | _ => Except.error (PyErr.valueError "Extra data")
  | none => Except.error (PyErr.valueError "No JSON object could be decoded")

/-- Model of Python `int(str)`: optional surrounding whitespace, optional
sign, then at least one digit. -/
def pyIntOfString (s : String) : Option Int :=
  let cs := skipWs s.data
  let (sign, cs') : Int × List Char :=
    match cs with
    | '-' :: r => (-1, r)
    | '+' :: r => (1, r)
    | r => (1, r)
  match takeDigits cs' with
  | ([], _) => none
  | (ds, r) => if skipWs r = [] then some (sign * digitsVal ds) else none

/-- Model of Python `int(x)` applied to a decoded JSON value. -/
def pyInt : Json → Except PyErr Int
  | Json.num n => Except.ok n
  | Json.bool b => Except.ok (if b then 1 else 0)
  | Json.str s =>
    match pyIntOfString s with
    | some n => Except.ok n
    | none => Except.error (PyErr.valueError ("invalid literal for int(): " ++ s))
  | Json.null => Except.error (PyErr.typeError "int() argument must be a string or a number, not NoneType")
  | Json.arr _ => Except.error (PyErr.typeError "int() argument must be a string or a number, not list")
  | Json.obj _ => Except.error (PyErr.typeError "int() argument must be a string or a number, not dict")

/-- Model of Python subscription `data[key]` on a decoded JSON value.
Python dicts keep the last value bound to a duplicated key, so the lookup
scans the reversed entry list. -/
def pySubscript (j : Json) (key : String) : Except PyErr Json :=
  match j with
  | Json.obj kvs =>
    match kvs.reverse.find? (fun kv => kv.1 == key) with
    | some kv => Except.ok kv.2
    | none => Except.error (PyErr.keyError key)
  | Json.str _ => Except.error (PyErr.typeError "string indices must be integers")
  | Json.arr _ => Except.error (PyErr.typeError "list indices must be integers")
  | _ => Except.error (PyErr.typeError "object is not subscriptable")

/-! ## The Django model rows (src/zengo/models.py)

Primary keys are modelled as integers handed out from a `nextPk` counter in
the `DB` state, mirroring `BigAutoField`.  Foreign keys store the primary
key of the referenced row.  Timestamps are abstract integers. -/

/-- Row of `zengo.models.ZendeskUser` (the local cache of a remote user). -/
structure ZendeskUserRow where
  id : Int
  zendesk_id : Int
  name : Option String
  email : Option String
  user : Option Int
  created_at : Int

deriving DecidableEq

/-- Row of `zengo.models.Ticket`.  `status` holds the constant id produced
by `Ticket.states.by_id.get`, hence an `Option String`. -/
structure TicketRow where
  id : Int
  zendesk_id : Int
  requester : Int
  subject : Option String
  description : Option String
  url : Option String
  status : Option String
  custom_fields : Option String
  tags : Option String
  created_at : Int
  updated_at : Option Int

deriving DecidableEq

/-- Row of `zengo.models.Comment`.  The `zendesk_id` column carries a
database-level `unique=True` constraint. -/
structure CommentRow where
  id : Int
  zendesk_id : Int
  ticket : Int
  author : Int
  body : Option String
  public : Bool
  created_at : Int

deriving DecidableEq

/-- Row of `zengo.models.Event`. -/
structure EventRow where
  id : Int
  raw_data : String
  remote_ticket_id : Option Int
  error : Option String
  ticket : Option Int

deriving DecidableEq

/-- The local database state. -/
structure DB where
  users : List ZendeskUserRow
  tickets : List TicketRow
  comments : List CommentRow
  events : List EventRow
  nextPk : Int

deriving DecidableEq

def db0 : DB := ⟨[], [], [], [], 0⟩

/-! ## Event Store: `ZengoProcessor.store_event` (service.py lines 283-303)

The source first persists the raw payload (`Event.objects.create`), then
parses it, then checks `int(data["id"])` catching only `KeyError` and
`ValueError`, and finally executes `event.json = data`.  `Event.json` is a
read-only `@property` (models.py lines 99-101), so that assignment raises
`AttributeError` in Python.  The `except (TypeError, ValueError)` branch
re-raises `ValidationError(e.message)` (Python 2 exception attribute);
its message content is modelled loosely. -/

def store_event (s : DB) (data : String) : DB × Except PyErr EventRow :=
  let ev : EventRow := ⟨s.nextPk, data, none, none, none⟩
  let s1 : DB := { s with events := s.events ++ [ev], nextPk := s.nextPk + 1 }
  match jsonLoads data with
  | Except.error _ => (s1, Except.error (PyErr.validationError "payload is not parseable"))
  | Except.ok d =>
    match pySubscript d "id" with
    | Except.error (PyErr.keyError _) =>
      (s1, Except.error (PyErr.validationError "`id` not found in data"))
    | Except.error e => (s1, Except.error e)
    | Except.ok v =>
      match pyInt v with
      | Except.error (PyErr.valueError _) =>
        (s1, Except.error (PyErr.validationError "`id` not found in data"))
      | Except.error e => (s1, Except.error e)
      | Except.ok _ =>
        -- `event.json = data`: assignment to the read-only property raises
        (s1, Except.error (PyErr.attributeError "cannot set attribute"))

/-! ## Remote (Zenpy) objects and the environment of external collaborators -/

/-- A remote Zendesk user as returned by the Zenpy API. -/
structure RemoteZendeskUser where
  id : Int
  name : Option String
  email : Option String
  external_id : Option Int
  created_at : Int

deriving DecidableEq

/-- A remote Zendesk ticket comment. -/
structure RemoteComment where
  id : Int
  author : RemoteZendeskUser
  body : Option String
  public : Bool
  created_at : Int

deriving DecidableEq

/-- A remote Zendesk ticket. -/
structure RemoteTicket where
  id : Int
  requester : RemoteZendeskUser
  subject : Option String
  description : Option String
  url : Option String
  status : String
  custom_fields : Option String
  tags : Option String
  created_at : Int
  updated_at : Option Int

deriving DecidableEq

/-- External collaborators: the Zenpy client (`client.tickets(id=..)`,
`client.tickets.comments(..)`) and the Django auth user table consulted by
`get_local_user_for_external_id`.  All lookups are deterministic. -/
structure Env where
  remoteTickets : List RemoteTicket
  remoteComments : Int → List RemoteComment
  localUserForExternalId : Option Int → Option Int

/-! ## `update_or_create` upserts

Django's `Model.objects.update_or_create(**key, defaults=d)` looks the row
up by the keyword keys; on a hit it assigns the defaults and saves (an
UPDATE by primary key), on a miss it inserts a row combining keys and
defaults.  The write enforces the model's database constraints.  For
`ZendeskUser` and `Ticket` the lookup key is exactly the unique column
`zendesk_id`, so upserting can never trip a uniqueness constraint; for
`Comment` the lookup key `(zendesk_id, ticket)` is strictly wider than
the unique column `zendesk_id`, so inserting can.  `Ticket.status` is a
`ConstantChoiceCharField` without `null=True` (models.py line 54), hence
a NOT NULL column: the `None` that `states.by_id.get` yields for an
unknown status is rejected by both the INSERT and the UPDATE of the
ticket upsert with the database integrity error. -/

def update_or_create_user (s : DB) (zid : Int) (userLink : Option Int)
    (email : Option String) (created_at : Int) (name : Option String) :
    DB × ZendeskUserRow × Bool :=
  match s.users.find? (fun u => u.zendesk_id == zid) with
  | some u =>
    let u' : ZendeskUserRow :=
      { u with user := userLink, email := email, created_at := created_at, name := name }
    ({ s with users := s.users.map (fun v => if v.id == u.id then u' else v) }, u', false)
  | none =>
    let u' : ZendeskUserRow := ⟨s.nextPk, zid, name, email, userLink, created_at⟩
    ({ s with users := s.users ++ [u'], nextPk := s.nextPk + 1 }, u', true)

def update_or_create_ticket (s : DB) (zid : Int) (requester : Int)
    (subject description url : Option String) (status : Option String)
    (custom_fields tags : Option String) (created_at : Int) (updated_at : Option Int) :
    Except PyErr (DB × TicketRow × Bool) :=
  match s.tickets.find? (fun t => t.zendesk_id == zid) with
  | some t =>
    match status with
    | none =>
      -- the UPDATE writes NULL into the NOT NULL status column
      Except.error PyErr.integrityError
    | some st =>
      let t' : TicketRow :=
        { t with requester := requester, subject := subject, description := description,
                 url := url, status := some st, custom_fields := custom_fields, tags := tags,
                 created_at := created_at, updated_at := updated_at }
      Except.ok
        ({ s with tickets := s.tickets.map (fun v => if v.id == t.id then t' else v) },
         t', false)
  | none =>
    match status with
    | none =>
      -- the INSERT writes NULL into the NOT NULL status column
      Except.error PyErr.integrityError
    | some st =>
      let t' : TicketRow :=
        ⟨s.nextPk, zid, requester, subject, description, url, some st, custom_fields, tags,
          created_at, updated_at⟩
      Except.ok ({ s with tickets := s.tickets ++ [t'], nextPk := s.nextPk + 1 }, t', true)

def update_or_create_comment (s : DB) (zid ticketPk : Int) (author : Int)
    (body : Option String) (pub : Bool) (created_at : Int) :
    Except PyErr (DB × CommentRow × Bool) :=
  match s.comments.find? (fun c => c.zendesk_id == zid && c.ticket == ticketPk) with
  | some c =>
    let c' : CommentRow :=
      { c with author := author, body := body, public := pub, created_at := created_at }
    Except.ok
      ({ s with comments := s.comments.map (fun v => if v.id == c.id then c' else v) }, c', false)
  | none =>
    -- the INSERT path must respect the `unique=True` constraint on zendesk_id
    if s.comments.any (fun c => c.zendesk_id == zid) then Except.error PyErr.integrityError
    else
      let c' : CommentRow := ⟨s.nextPk, zid, ticketPk, author, body, pub, created_at⟩
      Except.ok ({ s with comments := s.comments ++ [c'], nextPk := s.nextPk + 1 }, c', true)

/-! ## `ZengoService` (service.py lines 59-272) -/

/-- `ZengoService.update_or_create_local_zd_user_for_remote_zd_user`
(service.py lines 189-203). -/
def update_or_create_local_zd_user_for_remote_zd_user (env : Env) (s : DB)
    (r : RemoteZendeskUser) : DB × ZendeskUserRow :=
  let res := update_or_create_user s r.id
    (env.localUserForExternalId r.external_id) r.email r.created_at r.name
  (res.1, res.2.1)

/-- The fixed status constants of `Ticket.states` (models.py lines 46-53). -/
def ticket_states : List String :=
  ["new", "open", "pending", "hold", "solved", "closed"]

/-- `Ticket.states.by_id.get(k)`: a plain dict `.get`, returning the
constant for a known id and `None` otherwise — it raises nothing. -/
def states_by_id_get (k : String) : Option String :=
  if ticket_states.contains k then some k else none

/-- Python `str.lower()` on the ASCII status strings this service sees. -/
def pyLower (s : String) : String := String.mk (s.data.map Char.toLower)

/-- The status value stored by `sync_ticket`:
`Ticket.states.by_id.get(remote_zd_ticket.status.lower())`. -/
def map_remote_status (status : String) : Option String :=
  states_by_id_get (pyLower status)

/-- Comment ordering key used at the end of `sync_comments`:
`local_comments.sort(key=lambda c: (c.created_at, c.id))`. -/
def commentLe (a b : CommentRow) : Bool :=
  a.created_at < b.created_at || (a.created_at == b.created_at && a.id ≤ b.id)

def insertByKey (x : CommentRow) : List CommentRow → List CommentRow
  | [] => [x]
  | y :: ys => if commentLe x y then x :: y :: ys else y :: insertByKey x ys

/-- Stable ascending sort by `(created_at, id)`, modelling Python's
`list.sort` with that key. -/
def pySortComments : List CommentRow → List CommentRow
  | [] => []
  | x :: xs => insertByKey x (pySortComments xs)

def assocUser : List (RemoteZendeskUser × Int) → RemoteZendeskUser → Option Int
  | [], _ => none
  | (k, v) :: rest, r => if k = r then some v else assocUser rest r

/-- Author resolution step of the `sync_comments` loop: reuse the
`user_map` entry when the remote author has been seen, otherwise upsert
the author and extend the map (service.py lines 252-258). -/
def resolve_author (env : Env) (s : DB) (umap : List (RemoteZendeskUser × Int))
    (r : RemoteZendeskUser) : DB × Int × List (RemoteZendeskUser × Int) :=
  match assocUser umap r with
  | some pk => (s, pk, umap)
  | none =>
    let u := update_or_create_local_zd_user_for_remote_zd_user env s r
    (u.1, u.2.id, umap ++ [(r, u.2.id)])

/-- The body of the `for remote_comment in ...` loop of `sync_comments`
(service.py lines 251-269), processing the remote comments in order while
threading the db state, the `user_map` and the accumulated local comments. -/
def sync_comments_go (env : Env) (local_ticket : TicketRow) :
    DB → List (RemoteZendeskUser × Int) → List RemoteComment → List CommentRow →
    Except PyErr (DB × List CommentRow)
  | s, _, [], acc => Except.ok (s, acc)
  | s, umap, rc :: rest, acc =>
    let ra := resolve_author env s umap rc.author
    match update_or_create_comment ra.1 rc.id local_ticket.id ra.2.1 rc.body rc.public
        rc.created_at with
    | Except.error e => Except.error e
    | Except.ok res =>
      sync_comments_go env local_ticket res.1 ra.2.2 rest (acc ++ [res.2.1])

/-- `ZengoService.sync_comments` (service.py lines 247-272). -/
def sync_comments (env : Env) (s : DB) (zd_ticket : RemoteTicket)
    (local_ticket : TicketRow) : Except PyErr (DB × List CommentRow) :=
  match sync_comments_go env local_ticket s [(zd_ticket.requester, local_ticket.requester)]
      (env.remoteComments zd_ticket.id) [] with
  | Except.error e => Except.error e
  | Except.ok (s', cs) => Except.ok (s', pySortComments cs)

/-- `ZengoService.sync_ticket` (service.py lines 217-245). -/
def sync_ticket (env : Env) (s : DB) (rt : RemoteTicket) :
    Except PyErr (DB × TicketRow × Bool) :=
  let r1 := update_or_create_local_zd_user_for_remote_zd_user env s rt.requester
  match update_or_create_ticket r1.1 rt.id r1.2.id rt.subject rt.description rt.url
      (map_remote_status rt.status) rt.custom_fields rt.tags rt.created_at rt.updated_at with
  | Except.error e => Except.error e
  | Except.ok r2 =>
    match sync_comments env r2.1 rt r2.2.1 with
    | Except.error e => Except.error e
    | Except.ok res => Except.ok (res.1, r2.2.1, r2.2.2)

/-- `ZengoService.sync_ticket_id` (service.py lines 214-215); a missing
remote ticket surfaces as Zenpy's not-found exception. -/
def sync_ticket_id (env : Env) (s : DB) (ticket_id : Int) :
    Except PyErr (DB × TicketRow × Bool) :=
  match env.remoteTickets.find? (fun t => t.id == ticket_id) with
  | none => Except.error PyErr.recordNotFound
  | some rt => sync_ticket env s rt

/-! ## Resolving a local user to a remote Zendesk user
(`ZengoService.get_remote_zd_user_for_local_user`, service.py lines 79-110).

The Zenpy search calls are modelled as deterministic result lists;
`result.count` truthiness becomes non-emptiness and `result.next()` the
head. -/

/-- A Django auth user as this service reads it. An empty `email` string is
falsy for the `if local_user.email:` check.  `email_addresses` models the
allauth `EmailAddress` rows (address, verified); the source only mentions
them in a commented-out block, but the spec's tier-2 policy needs them. -/
structure LocalUser where
  id : Int
  first_name : String
  email : String
  email_addresses : List (String × Bool)

/-- The two Zenpy user searches the source performs. -/
structure UserSearchClient where
  byExternalId : Int → List RemoteZendeskUser
  byEmail : String → List RemoteZendeskUser

/-- `ZengoService.get_local_user_external_id` (service.py line 70-71). -/
def get_local_user_external_id (u : LocalUser) : Int := u.id

/-- `ZengoService.get_remote_zd_user_for_local_user` (service.py lines
79-110).  The block matching by allauth `EmailAddress` rows is commented
out in the source, so control falls from the external-id search straight
to the raw `local_user.email` search. -/
def get_remote_zd_user_for_local_user (client : UserSearchClient) (u : LocalUser) :
    Option RemoteZendeskUser × Bool :=
  match client.byExternalId (get_local_user_external_id u) with
  | r :: _ => (some r, true)
  | [] =>
    if u.email ≠ "" then
      match client.byEmail u.email with
      | r :: _ => (some r, false)
      | [] => (none, false)
    else (none, false)

/-- Modelled from the spec: the four-tier resolution policy of spec
section 4.1 sentence "(1) exact match by external-id tag on the remote
side → definite match; (2) else match by the local account's verified
email addresses-equivalent → match strength tied to verification state;
(3) else match by raw email string on file → weak match; (4) no match →
signal not found."  Tier (2) is the part missing from src (the
corresponding block of `get_remote_zd_user_for_local_user` is commented
out); it is written here only to be compared with the source function. -/
def four_tier_resolution (client : UserSearchClient) (u : LocalUser) :
    Option RemoteZendeskUser × Bool :=
  match client.byExternalId (get_local_user_external_id u) with
  | r :: _ => (some r, true)
  | [] =>
    match u.email_addresses.findSome?
        (fun ev =>
          match client.byEmail ev.1 with
          | r :: _ => some (r, ev.2)
          | [] => none) with
    | some (r, verified) => (some r, verified)
    | none =>
      if u.email ≠ "" then
        match client.byEmail u.email with
        | r :: _ => (some r, false)
        | [] => (none, false)
      else (none, false)

/-! ## `ZengoProcessor` diffing and the reconciliation pipeline
(service.py lines 305-410). -/

/-- A field value as produced by `django.forms.models.model_to_dict`. -/
inductive FieldVal where
  | int (n : Int)
  | optInt (n : Option Int)
  | optStr (s : Option String)

deriving DecidableEq

/-- `model_to_dict(ticket)`: every editable field of `Ticket` keyed by
field name.  The `BigAutoField` primary key is not editable and is
excluded; the `requester` foreign key contributes its primary key. -/
def model_to_dict (t : TicketRow) : List (String × FieldVal) :=
  [("zendesk_id", FieldVal.int t.zendesk_id),
   ("requester", FieldVal.int t.requester),
   ("subject", FieldVal.optStr t.subject),
   ("description", FieldVal.optStr t.description),
   ("url", FieldVal.optStr t.url),
   ("status", FieldVal.optStr t.status),
   ("custom_fields", FieldVal.optStr t.custom_fields),
   ("tags", FieldVal.optStr t.tags),
   ("created_at", FieldVal.int t.created_at),
   ("updated_at", FieldVal.optInt t.updated_at)]

/-- `ZengoProcessor.get_new_comments` (service.py lines 378-385).  The
unused ticket arguments are kept to mirror the source signature. -/
def get_new_comments (_pre_ticket : Option TicketRow) (_post_ticket : Option TicketRow)
    (pre_comments post_comments : List CommentRow) : List CommentRow :=
  if pre_comments.length < post_comments.length then
    let new_comment_ids : List Int :=
      (post_comments.map (fun c => c.zendesk_id)).filter
        (fun i => !(pre_comments.map (fun c => c.zendesk_id)).contains i)
    post_comments.filter (fun c => new_comment_ids.contains c.zendesk_id)
  else []

/-- `ZengoProcessor.get_updated_fields` (service.py lines 387-405):
iterate the keys of the pre snapshot's dict, skip the two timestamp keys,
and record an old/new pair for every key whose values differ. -/
def get_updated_fields (pre_ticket post_ticket : Option TicketRow)
    (_pre_comments _post_comments : List CommentRow) :
    List (String × FieldVal × FieldVal) :=
  match pre_ticket, post_ticket with
  | some p, some q =>
    let pre_fields := model_to_dict p
    let post_fields := model_to_dict q
    pre_fields.filterMap (fun kv =>
      if kv.1 = "created_at" ∨ kv.1 = "updated_at" then none
      else
        match post_fields.find? (fun kv' => kv'.1 == kv.1) with
        | some kv' => if kv.2 = kv'.2 then none else some (kv.1, kv.2, kv'.2)
        | none => none)
  | _, _ => []

/-- The updates dict built by `ZengoProcessor.get_updates`
(service.py lines 366-376). -/
structure Updates where
  new_comments : List CommentRow
  updated_fields : List (String × FieldVal × FieldVal)

deriving DecidableEq

/-- The `update_context` dict passed downstream (service.py lines 346-351). -/
structure UpdateContext where
  pre_ticket : Option TicketRow
  post_ticket : TicketRow
  pre_comments : List CommentRow
  post_comments : List CommentRow

deriving DecidableEq

def get_updates (ctx : UpdateContext) : Updates :=
  ⟨get_new_comments ctx.pre_ticket (some ctx.post_ticket) ctx.pre_comments ctx.post_comments,
   get_updated_fields ctx.pre_ticket (some ctx.post_ticket) ctx.pre_comments ctx.post_comments⟩

/-- One signal published through `zengo.signals`. -/
inductive Notification where
  | ticketCreated (ticket : TicketRow) (context : UpdateContext)
  | ticketUpdated (ticket : TicketRow) (updates : Updates) (context : UpdateContext)

deriving DecidableEq

/-- `ticket.comments.all()`: the Comment rows whose foreign key points at
the given ticket, in table order (the model declares no default
ordering). -/
def ticketCommentsOf (s : DB) (ticketPk : Int) : List CommentRow :=
  s.comments.filter (fun c => c.ticket == ticketPk)

/-- `ZengoProcessor.process_event` (service.py lines 324-364), returning
the updated db state together with the list of signals sent.  The
`acquire_ticket_lock` context manager is a no-op placeholder in the
source. -/
def process_event (env : Env) (s : DB) (e : EventRow) :
    Except PyErr (DB × List Notification) :=
  match jsonLoads e.raw_data with
  | Except.error err => Except.error err
  | Except.ok j =>
    match pySubscript j "id" with
    | Except.error err => Except.error err
    | Except.ok v =>
      match pyInt v with
      | Except.error err => Except.error err
      | Except.ok ticket_id =>
        let pre_sync_ticket := s.tickets.find? (fun t => t.zendesk_id == ticket_id)
        let pre_sync_comments :=
          match pre_sync_ticket with
          | some t => ticketCommentsOf s t.id
          | none => []
        match sync_ticket_id env s ticket_id with
        | Except.error err => Except.error err
        | Except.ok (s', post_sync_ticket, created) =>
          let post_sync_comments := ticketCommentsOf s' post_sync_ticket.id
          let update_context : UpdateContext :=
            ⟨pre_sync_ticket, post_sync_ticket, pre_sync_comments, post_sync_comments⟩
          if created && post_sync_comments.isEmpty then
            Except.ok (s', [Notification.ticketCreated post_sync_ticket update_context])
          else
            Except.ok (s',
              [Notification.ticketUpdated post_sync_ticket (get_updates update_context)
                update_context])

/-- Rendering of `traceback.format_exc()` for the raised exception. -/
def tracebackText (e : PyErr) : String :=
  "Traceback (most recent call last): " ++
  (match e with
   | PyErr.validationError m => "ValidationError: " ++ m
   | PyErr.valueError m => "ValueError: " ++ m
   | PyErr.typeError m => "TypeError: " ++ m
   | PyErr.keyError m => "KeyError: " ++ m
   | PyErr.attributeError m => "AttributeError: " ++ m
   | PyErr.integrityError => "IntegrityError"
   | PyErr.recordNotFound => "RecordNotFoundException")

/-- `event.save(update_fields=("error",))`: an UPDATE of the error column
by primary key. -/
def saveEventError (s : DB) (e : EventRow) : DB :=
  { s with events := s.events.map (fun ev => if ev.id == e.id then { ev with error := e.error } else ev) }

/-- `ZengoProcessor.process_event_and_record_errors` (service.py lines
308-322).  `process_event` runs inside `transaction.atomic()`: on an
exception every write of the attempt is rolled back (the pre-call state
`s` is kept), the traceback is saved onto the event outside the aborted
transaction, and the exception is re-raised.  On success the event row is
not touched. -/
def process_event_and_record_errors (env : Env) (s : DB) (e : EventRow) :
    DB × EventRow × Except PyErr (List Notification) :=
  match process_event env s e with
  | Except.ok (s', notifications) => (s', e, Except.ok notifications)
  | Except.error err =>
    let e' : EventRow := { e with error := some (tracebackText err) }
    (saveEventError s e', e', Except.error err)

def c4a : CommentRow := ⟨1, 11, 1, 1, some "first", true, 10⟩

def c4b : CommentRow := ⟨2, 12, 1, 1, some "second", true, 20⟩

/-! ## Claim C8: updated-fields diff computation -/

/-- One entry of the updated-fields dict: present exactly when the old and
new values differ. -/
def diffEntry (k : String) (a b : FieldVal) : List (String × FieldVal × FieldVal) :=
  if a = b then [] else [(k, a, b)]

def ru6 : RemoteZendeskUser := ⟨7, some "Req", some "req@example.com", none, 100⟩

/-- A remote ticket whose status string is outside the fixed enum. -/
def rt6 : RemoteTicket :=
  ⟨42, ru6, some "Subj", some "Desc", some "http://x", "Deleted", none, none, 200, none⟩

def env6 : Env := ⟨[rt6], fun _ => [], fun _ => none⟩

/-- A database holding one comment with remote id 8, used to show that an
unrelated constraint violation raises the very same generic error. -/
def db6b : DB := ⟨[], [], [⟨0, 8, 1, 0, some "x", true, 10⟩], [], 1⟩

/-! ## Claim C9: resolving a local account to a remote identity -/

def ru9 : RemoteZendeskUser := ⟨55, some "Ada", some "ada@example.com", none, 100⟩

/-- A search client with no external-id hit and a hit for the address
"ada@example.com". -/
def client9 : UserSearchClient :=
  ⟨fun _ => [], fun e => if e = "ada@example.com" then [ru9] else []⟩

/-- A local user with no raw `email` on file but a verified EmailAddress
entry for "ada@example.com". -/
def localUser9 : LocalUser := ⟨1, "Ada", "", [("ada@example.com", true)]⟩

def client9b : UserSearchClient :=
  ⟨fun i => if i = 2 then [ru9] else [], fun _ => []⟩

def localUser9b : LocalUser := ⟨2, "Bob", "bob@example.com", []⟩

/-! ## Claim C10: comment uniqueness scoping -/

/-- A database holding two tickets and one comment with remote id 5 under
the first ticket. -/
def db10 : DB :=
  ⟨[⟨0, 7, none, none, none, 100⟩],
   [⟨1, 41, 0, none, none, none, some "open", none, none, 200, none⟩,
    ⟨2, 43, 0, none, none, none, some "open", none, none, 200, none⟩],
   [⟨3, 5, 1, 0, some "hello", true, 300⟩],
   [], 4⟩

/-- A comment row after Django assigns the `defaults=` of the comment
upsert (service.py lines 262-267). -/
def commentWithDefaults (c : CommentRow) (apk : Int) (body : Option String)
    (pub : Bool) (ca : Int) : CommentRow :=
  { c with author := apk, body := body, public := pub, created_at := ca }

/-! ## Claims C1 and C7: the Event Store boundary -/

/-- The spec's end-to-end example payload, a JSON object with "id": "42". -/
def payload42 : String := "\x7b\"id\": \"42\"\x7d"

def c7null : String := "\x7b\"id\": null\x7d"

def c7missing : String := "\x7b\"other\": 1\x7d"

def c7badstr : String := "\x7b\"id\": \"abc\"\x7d"

def c7malformed : String := "not json"

/-! ## Claims C2 and C3: the reconciliation pipeline -/

def ruC : RemoteZendeskUser := ⟨9, some "Req", some "r@example.com", none, 100⟩

/-- Remote ticket 42 with no comments. -/
def rt42 : RemoteTicket :=
  ⟨42, ruC, some "Help", some "Please", some "http://t", "open", none, none, 200, none⟩

def env42 : Env := ⟨[rt42], fun _ => [], fun _ => none⟩

/-- The db state after syncing ticket 42 into an empty database. -/
def db42after : DB :=
  ⟨[⟨0, 9, some "Req", some "r@example.com", none, 100⟩],
   [⟨1, 42, 0, some "Help", some "Please", some "http://t", some "open", none, none,
     200, none⟩],
   [], [], 2⟩

def t42row : TicketRow :=
  ⟨1, 42, 0, some "Help", some "Please", some "http://t", some "open", none, none,
    200, none⟩

def ctx42 : UpdateContext := ⟨none, t42row, [], []⟩

/-- An event carrying the error text of an earlier failed attempt. -/
def ev42 : EventRow := ⟨50, "\x7b\"id\": 42\x7d", some 42, some "previous failure", none⟩

/-- Remote ticket 42 carrying one comment whose remote comment id 7 is
already taken by a comment of another local ticket. -/
def envCf : Env :=
  ⟨[{ rt42 with custom_fields := none }],
   fun i => if i == 42 then [⟨7, ruC, some "dup", true, 170⟩] else [],
   fun _ => none⟩

def evCf : EventRow := ⟨50, "\x7b\"id\": 42\x7d", some 42, none, none⟩

/-- A database holding the requester, an unrelated ticket 99 owning the
comment with remote id 7, and the event row for `evCf`. -/
def dbCf : DB :=
  ⟨[⟨0, 9, some "Req", some "r@example.com", none, 100⟩],
   [⟨1, 99, 0, none, none, none, some "open", none, none, 150, none⟩],
   [⟨2, 7, 1, 0, some "old", true, 160⟩],
   [⟨50, "\x7b\"id\": 42\x7d", some 42, none, none⟩], 51⟩

/-- `int(event.json["id"])`: the ticket id extracted from the event's raw
payload (service.py line 332). -/
def eventTicketId (e : EventRow) : Except PyErr Int :=
  match jsonLoads e.raw_data with
  | Except.error err => Except.error err
  | Except.ok j =>
    match pySubscript j "id" with
    | Except.error err => Except.error err
    | Except.ok v => pyInt v

/-- A fresh successfully processed event for the C3 witness. -/
def evC3 : EventRow := ⟨60, payload42, some 42, none, none⟩

/-- Auto-increment well-formedness: every primary key is below the
counter and keys are pairwise distinct per table. -/
def DB.wf (s : DB) : Prop :=
  (∀ u ∈ s.users, u.id < s.nextPk) ∧ (s.users.map (fun u => u.id)).Nodup ∧
  (∀ t ∈ s.tickets, t.id < s.nextPk) ∧ (s.tickets.map (fun t => t.id)).Nodup ∧
  (∀ c ∈ s.comments, c.id < s.nextPk) ∧ (s.comments.map (fun c => c.id)).Nodup

/-- The user row for remote user `r` is present with primary key `pk` and
already carries exactly the defaults of the user upsert. -/
def UserSettled (env : Env) (users : List ZendeskUserRow) (r : RemoteZendeskUser)
    (pk : Int) : Prop :=
  ∃ u, users.find? (fun v => v.zendesk_id == r.id) = some u ∧ u.id = pk ∧
    u.name = r.name ∧ u.email = r.email ∧
    u.user = env.localUserForExternalId r.external_id ∧ u.created_at = r.created_at

/-- The ticket row `t` is the row found for `rt` and already carries
exactly the defaults of the ticket upsert with requester `reqPk`. -/
def TicketSettled (tickets : List TicketRow) (rt : RemoteTicket) (reqPk : Int)
    (t : TicketRow) : Prop :=
  tickets.find? (fun v => v.zendesk_id == rt.id) = some t ∧
  t.requester = reqPk ∧ t.subject = rt.subject ∧ t.description = rt.description ∧
  t.url = rt.url ∧ t.status = map_remote_status rt.status ∧
  t.custom_fields = rt.custom_fields ∧ t.tags = rt.tags ∧
  t.created_at = rt.created_at ∧ t.updated_at = rt.updated_at

/-- The comment row for `(rc.id, tpk)` is present and already carries
exactly the defaults of the comment upsert with author `apk`. -/
def CommentSettled (comments : List CommentRow) (rc : RemoteComment) (tpk apk : Int) :
    Prop :=
  ∃ c, comments.find? (fun v => v.zendesk_id == rc.id && v.ticket == tpk) = some c ∧
    c.author = apk ∧ c.body = rc.body ∧ c.public = rc.public ∧ c.created_at = rc.created_at

/-- Every `user_map` entry is settled. -/
def UmapSettled (env : Env) (users : List ZendeskUserRow)
    (umap : List (RemoteZendeskUser × Int)) : Prop :=
  ∀ p ∈ umap, UserSettled env users p.1 p.2

instance (s : DB) : Decidable s.wf := by
  unfold DB.wf
  infer_instance

def auW : RemoteZendeskUser := ⟨10, some "Oth", some "o@example.com", none, 110⟩

def rcW : RemoteComment := ⟨7, auW, some "hi", true, 170⟩

def rtW : RemoteTicket := ⟨43, ruC, some "S", some "D", some "U", "open", none, none, 200, none⟩

def envW : Env := ⟨[rtW], fun i => if i == 43 then [rcW] else [], fun _ => none⟩

def t1W : TicketRow :=
  ⟨1, 43, 0, some "S", some "D", some "U", some "open", none, none, 200, none⟩

/-- The database after the first sync of remote ticket 43 into an empty
database: the requester, the ticket, the comment author, one comment. -/
def s1W : DB :=
  ⟨[⟨0, 9, some "Req", some "r@example.com", none, 100⟩,
    ⟨2, 10, some "Oth", some "o@example.com", none, 110⟩],
   [t1W],
   [⟨3, 7, 1, 2, some "hi", true, 170⟩],
   [], 4⟩

/-! ## Claim C4: new-comment diff computation -/

theorem contains_filter_not_contains (pre post : List Int) (i : Int) (h : i ∈ post) :
    (post.filter (fun j => !pre.contains j)).contains i = !pre.contains i := by
  cases hc : pre.contains i with
  | true =>
    simp only [Bool.not_true]
    simp only [List.contains, List.elem_eq_mem] at *
    simp only [decide_eq_false_iff_not, List.mem_filter]
    intro ⟨_, hpc⟩
    rw [hc] at hpc
    simp at hpc
  | false =>
    simp only [Bool.not_false]
    simp only [List.contains, List.elem_eq_mem] at *
    simp only [decide_eq_true_eq, List.mem_filter]
    exact ⟨h, by rw [hc]; rfl⟩

/-- C4: for all pre and post comment lists, `get_new_comments` returns
exactly the comments of post whose remote comment id is absent from pre
when the post count strictly exceeds the pre count, and the empty list
whenever the post count is equal or lower.  The concrete instance
pre = [c1], post = [c1, c2] is checked by the witness theorem. -/
theorem get_new_comments_correct (pt qt : Option TicketRow)
    (pre post : List CommentRow) :
    (pre.length < post.length →
      get_new_comments pt qt pre post
        = post.filter
            (fun c => !(pre.map (fun c' => c'.zendesk_id)).contains c.zendesk_id)) ∧
    (post.length ≤ pre.length → get_new_comments pt qt pre post = []) := by
  constructor
  · intro h
    unfold get_new_comments
    rw [if_pos h]
    apply List.filter_congr
    intro c hc
    apply contains_filter_not_contains
    exact List.mem_map.mpr ⟨c, hc, rfl⟩
  · intro h
    unfold get_new_comments
    rw [if_neg (by omega)]

/-- Witness for C4: pre [c1], post [c1, c2] yields exactly [c2], via the
theorem at that concrete input. -/
theorem get_new_comments_correct_witness :
    get_new_comments none none [c4a] [c4a, c4b] = [c4b] := by
  have h := (get_new_comments_correct none none [c4a] [c4a, c4b]).1 (by decide)
  rw [h]
  decide

theorem filterMap_diff_entry {α : Type} (f : α → Option (String × FieldVal × FieldVal))
    (kv : α) (rest : List α) (k : String) (a b : FieldVal)
    (h : f kv = if a = b then none else some (k, a, b)) :
    (kv :: rest).filterMap f = diffEntry k a b ++ rest.filterMap f := by
  rw [List.filterMap_cons, h, diffEntry]
  by_cases hab : a = b
  · rw [if_pos hab, if_pos hab]; rfl
  · rw [if_neg hab, if_neg hab]; rfl

theorem filterMap_skip_entry {α : Type} (f : α → Option (String × FieldVal × FieldVal))
    (kv : α) (rest : List α) (h : f kv = none) :
    (kv :: rest).filterMap f = rest.filterMap f := by
  rw [List.filterMap_cons, h]

/-- C8: `get_updated_fields` is empty when either snapshot is absent;
on two snapshots it compares exactly the eight non-timestamp fields
(`created_at` and `updated_at` are skipped), emitting an old/new pair for
each differing field; and changing only the timestamps yields the empty
map. -/
theorem get_updated_fields_correct :
    (∀ (q : Option TicketRow) (pcs qcs : List CommentRow),
        get_updated_fields none q pcs qcs = []) ∧
    (∀ (p : Option TicketRow) (pcs qcs : List CommentRow),
        get_updated_fields p none pcs qcs = []) ∧
    (∀ (p q : TicketRow) (pcs qcs : List CommentRow),
        get_updated_fields (some p) (some q) pcs qcs =
          diffEntry "zendesk_id" (FieldVal.int p.zendesk_id) (FieldVal.int q.zendesk_id) ++
          diffEntry "requester" (FieldVal.int p.requester) (FieldVal.int q.requester) ++
          diffEntry "subject" (FieldVal.optStr p.subject) (FieldVal.optStr q.subject) ++
          diffEntry "description" (FieldVal.optStr p.description)
            (FieldVal.optStr q.description) ++
          diffEntry "url" (FieldVal.optStr p.url) (FieldVal.optStr q.url) ++
          diffEntry "status" (FieldVal.optStr p.status) (FieldVal.optStr q.status) ++
          diffEntry "custom_fields" (FieldVal.optStr p.custom_fields)
            (FieldVal.optStr q.custom_fields) ++
          diffEntry "tags" (FieldVal.optStr p.tags) (FieldVal.optStr q.tags)) ∧
    (∀ (p : TicketRow) (ca : Int) (ua : Option Int) (pcs qcs : List CommentRow),
        get_updated_fields (some p) (some { p with created_at := ca, updated_at := ua })
          pcs qcs = []) := by
  refine ⟨?_, ?_, ?_, ?_⟩
  · intro q pcs qcs; cases q <;> rfl
  · intro p pcs qcs; cases p <;> rfl
  · intro p q pcs qcs
    show List.filterMap
        (fun kv =>
          if kv.1 = "created_at" ∨ kv.1 = "updated_at" then none
          else
            match List.find? (fun kv' => kv'.1 == kv.1) (model_to_dict q) with
            | some kv' => if kv.2 = kv'.2 then none else some (kv.1, kv.2, kv'.2)
            | none => none)
        (model_to_dict p) = _
    rw [show model_to_dict p =
      [("zendesk_id", FieldVal.int p.zendesk_id),
       ("requester", FieldVal.int p.requester),
       ("subject", FieldVal.optStr p.subject),
       ("description", FieldVal.optStr p.description),
       ("url", FieldVal.optStr p.url),
       ("status", FieldVal.optStr p.status),
       ("custom_fields", FieldVal.optStr p.custom_fields),
       ("tags", FieldVal.optStr p.tags),
       ("created_at", FieldVal.int p.created_at),
       ("updated_at", FieldVal.optInt p.updated_at)] from rfl]
    rw [filterMap_diff_entry _ _ _ "zendesk_id" (FieldVal.int p.zendesk_id)
      (FieldVal.int q.zendesk_id) (by simp [model_to_dict, List.find?])]
    rw [filterMap_diff_entry _ _ _ "requester" (FieldVal.int p.requester)
      (FieldVal.int q.requester) (by simp [model_to_dict, List.find?])]
    rw [filterMap_diff_entry _ _ _ "subject" (FieldVal.optStr p.subject)
      (FieldVal.optStr q.subject) (by simp [model_to_dict, List.find?])]
    rw [filterMap_diff_entry _ _ _ "description" (FieldVal.optStr p.description)
      (FieldVal.optStr q.description) (by simp [model_to_dict, List.find?])]
    rw [filterMap_diff_entry _ _ _ "url" (FieldVal.optStr p.url)
      (FieldVal.optStr q.url) (by simp [model_to_dict, List.find?])]
    rw [filterMap_diff_entry _ _ _ "status" (FieldVal.optStr p.status)
      (FieldVal.optStr q.status) (by simp [model_to_dict, List.find?])]
    rw [filterMap_diff_entry _ _ _ "custom_fields" (FieldVal.optStr p.custom_fields)
      (FieldVal.optStr q.custom_fields) (by simp [model_to_dict, List.find?])]
    rw [filterMap_diff_entry _ _ _ "tags" (FieldVal.optStr p.tags)
      (FieldVal.optStr q.tags) (by simp [model_to_dict, List.find?])]
    rw [filterMap_skip_entry _ _ _ (by simp)]
    rw [filterMap_skip_entry _ _ _ (by simp)]
    simp
  · intro p ca ua pcs qcs
    simp [get_updated_fields, model_to_dict]

/-! ## Claim C6: status lower-casing and mapping during ticket sync -/

theorem update_or_create_ticket_row (s : DB) (zid req : Int)
    (sub desc url : Option String) (st : Option String) (cf tg : Option String)
    (ca : Int) (ua : Option Int) (s2 : DB) (t : TicketRow) (c : Bool)
    (hok : update_or_create_ticket s zid req sub desc url st cf tg ca ua
      = Except.ok (s2, t, c)) :
    t.status = st ∧ t.requester = req := by
  unfold update_or_create_ticket at hok
  cases hf : s.tickets.find? (fun v => v.zendesk_id == zid) with
  | some t0 =>
    rw [hf] at hok
    dsimp only at hok
    cases st with
    | none => exact absurd hok (by simp)
    | some v =>
      simp only [Except.ok.injEq, Prod.mk.injEq] at hok
      rw [← hok.2.1]
      exact ⟨rfl, rfl⟩
  | none =>
    rw [hf] at hok
    dsimp only at hok
    cases st with
    | none => exact absurd hok (by simp)
    | some v =>
      simp only [Except.ok.injEq, Prod.mk.injEq] at hok
      rw [← hok.2.1]
      exact ⟨rfl, rfl⟩

theorem update_or_create_ticket_ok_status (s : DB) (zid req : Int)
    (sub desc url : Option String) (st : Option String) (cf tg : Option String)
    (ca : Int) (ua : Option Int) (s2 : DB) (t : TicketRow) (c : Bool)
    (hok : update_or_create_ticket s zid req sub desc url st cf tg ca ua
      = Except.ok (s2, t, c)) :
    ∃ v, st = some v := by
  unfold update_or_create_ticket at hok
  cases hf : s.tickets.find? (fun v => v.zendesk_id == zid) with
  | some t0 =>
    rw [hf] at hok
    dsimp only at hok
    cases st with
    | none => exact absurd hok (by simp)
    | some v => exact ⟨v, rfl⟩
  | none =>
    rw [hf] at hok
    dsimp only at hok
    cases st with
    | none => exact absurd hok (by simp)
    | some v => exact ⟨v, rfl⟩

theorem sync_ticket_ok_parts (env : Env) (s : DB) (rt : RemoteTicket)
    (s' : DB) (t : TicketRow) (c : Bool)
    (h : sync_ticket env s rt = Except.ok (s', t, c)) :
    ∃ s2, update_or_create_ticket
        (update_or_create_local_zd_user_for_remote_zd_user env s rt.requester).1 rt.id
        (update_or_create_local_zd_user_for_remote_zd_user env s rt.requester).2.id
        rt.subject rt.description rt.url (map_remote_status rt.status) rt.custom_fields
        rt.tags rt.created_at rt.updated_at = Except.ok (s2, t, c) := by
  simp only [sync_ticket] at h
  cases hup : update_or_create_ticket
      (update_or_create_local_zd_user_for_remote_zd_user env s rt.requester).1 rt.id
      (update_or_create_local_zd_user_for_remote_zd_user env s rt.requester).2.id
      rt.subject rt.description rt.url (map_remote_status rt.status) rt.custom_fields
      rt.tags rt.created_at rt.updated_at with
  | error e =>
    rw [hup] at h
    exact absurd h (by simp)
  | ok r2 =>
    rw [hup] at h
    dsimp only at h
    cases hsc : sync_comments env r2.1 rt r2.2.1 with
    | error e => rw [hsc] at h; exact absurd h (by simp)
    | ok res =>
      rw [hsc] at h
      simp only [Except.ok.injEq, Prod.mk.injEq] at h
      obtain ⟨_, ht, hc⟩ := h
      refine ⟨r2.1, ?_⟩
      rw [← ht, ← hc]

/-- C6 (amended): during ticket sync the remote status string is
lower-cased and looked up in the fixed map over the six statuses.  When
the sync returns successfully, the status was one of the six and the
ticket row stores it lower-cased.  When it is not, the dict `.get`
silently yields `None`, writing it violates the NOT NULL constraint on
the status column, and the sync fails with the generic database
integrity error — the same exception any other constraint violation
raises — not an identifiable `UnknownStatusError` (no such class exists
in the source); an empty status is never silently stored. -/
theorem sync_ticket_status_mapping (env : Env) (s : DB) (rt : RemoteTicket) :
    (∀ s' t c, sync_ticket env s rt = Except.ok (s', t, c) →
      ticket_states.contains (pyLower rt.status) = true ∧
      t.status = some (pyLower rt.status) ∧
      t.status = map_remote_status rt.status) ∧
    (ticket_states.contains (pyLower rt.status) = false →
      sync_ticket env s rt = Except.error PyErr.integrityError) := by
  constructor
  · intro s' t c h
    obtain ⟨s2, hok⟩ := sync_ticket_ok_parts env s rt s' t c h
    have hrow := update_or_create_ticket_row
      (update_or_create_local_zd_user_for_remote_zd_user env s rt.requester).1 rt.id
      (update_or_create_local_zd_user_for_remote_zd_user env s rt.requester).2.id
      rt.subject rt.description rt.url (map_remote_status rt.status) rt.custom_fields
      rt.tags rt.created_at rt.updated_at s2 t c hok
    obtain ⟨v, hv⟩ := update_or_create_ticket_ok_status
      (update_or_create_local_zd_user_for_remote_zd_user env s rt.requester).1 rt.id
      (update_or_create_local_zd_user_for_remote_zd_user env s rt.requester).2.id
      rt.subject rt.description rt.url (map_remote_status rt.status) rt.custom_fields
      rt.tags rt.created_at rt.updated_at s2 t c hok
    have hcont : ticket_states.contains (pyLower rt.status) = true := by
      by_cases hb : ticket_states.contains (pyLower rt.status) = true
      · exact hb
      · exfalso
        have hmap : map_remote_status rt.status = none := by
          unfold map_remote_status states_by_id_get
          rw [if_neg hb]
        rw [hmap] at hv
        exact absurd hv (by simp)
    have hmap : map_remote_status rt.status = some (pyLower rt.status) := by
      unfold map_remote_status states_by_id_get
      rw [if_pos hcont]
    refine ⟨hcont, ?_, hrow.1⟩
    rw [hrow.1, hmap]
  · intro hfalse
    have hmap : map_remote_status rt.status = none := by
      unfold map_remote_status states_by_id_get
      rw [if_neg (by rw [hfalse]; simp)]
    unfold sync_ticket
    dsimp only
    rw [hmap]
    unfold update_or_create_ticket
    cases hf : (update_or_create_local_zd_user_for_remote_zd_user env s
        rt.requester).1.tickets.find? (fun v => v.zendesk_id == rt.id) with
    | some t0 => rfl
    | none => rfl

/-- C6 counterexample: syncing the remote ticket whose status is the
unrecognized string "Deleted" does fail — but with the generic database
integrity error, the very same exception an unrelated comment-id
collision raises, not an identifiable `UnknownStatusError` (no such
exception class exists anywhere in the source). -/
theorem sync_unknown_status_generic_error :
    sync_ticket env6 db0 rt6 = Except.error PyErr.integrityError ∧
    update_or_create_comment db6b 8 2 0 (some "y") true 20 =
      Except.error PyErr.integrityError := by
  constructor
  · decide
  · decide

/-- Witness for C6 (amended): the success half applied at the concrete
sync of remote ticket 42 (status "open"), and the failure half applied at
the unrecognized status "Deleted". -/
theorem sync_ticket_status_mapping_witness :
    (ticket_states.contains (pyLower rt42.status) = true ∧
      t42row.status = some (pyLower rt42.status) ∧
      t42row.status = map_remote_status rt42.status) ∧
    sync_ticket env6 db0 rt6 = Except.error PyErr.integrityError :=
  ⟨(sync_ticket_status_mapping env42 db0 rt42).1 db42after t42row true (by decide),
   (sync_ticket_status_mapping env6 db0 rt6).2 (by decide)⟩

/-- C9 counterexample: under the four-tier policy the claim describes,
`localUser9` resolves through tier 2 (verified email addresses) to a
definite-strength match, but the source function — whose verified-email
block is commented out — signals not-found.  The claim that resolution
follows the four-tier policy is therefore false on the code. -/
theorem resolution_skips_verified_email_tier :
    get_remote_zd_user_for_local_user client9 localUser9 = (none, false) ∧
    four_tier_resolution client9 localUser9 = (some ru9, true) := by
  constructor
  · rfl
  · rfl

/-- C9 (amended): the source resolution has three tiers, not four:
(1) a non-empty external-id search returns its first hit flagged definite
(`true`); (2) otherwise, when the raw `email` string on file is non-empty
and its search has a hit, the first hit is returned flagged weak
(`false`); (3) otherwise the result is (not found, `false`).  The
verified-email-addresses tier of the spec is absent from the code. -/
theorem resolution_three_tiers (client : UserSearchClient) (u : LocalUser) :
    (∀ r rest, client.byExternalId u.id = r :: rest →
      get_remote_zd_user_for_local_user client u = (some r, true)) ∧
    (client.byExternalId u.id = [] → u.email ≠ "" →
      ∀ r rest, client.byEmail u.email = r :: rest →
        get_remote_zd_user_for_local_user client u = (some r, false)) ∧
    (client.byExternalId u.id = [] → u.email = "" →
      get_remote_zd_user_for_local_user client u = (none, false)) ∧
    (client.byExternalId u.id = [] → client.byEmail u.email = [] →
      get_remote_zd_user_for_local_user client u = (none, false)) := by
  refine ⟨?_, ?_, ?_, ?_⟩
  · intro r rest hext
    unfold get_remote_zd_user_for_local_user get_local_user_external_id
    rw [hext]
  · intro hext hmail r rest hhit
    unfold get_remote_zd_user_for_local_user get_local_user_external_id
    rw [hext, if_pos hmail, hhit]
  · intro hext hmail
    unfold get_remote_zd_user_for_local_user get_local_user_external_id
    rw [hext, if_neg (by rw [hmail]; simp)]
  · intro hext hhit
    unfold get_remote_zd_user_for_local_user get_local_user_external_id
    rw [hext]
    by_cases hmail : u.email ≠ ""
    · rw [if_pos hmail, hhit]
    · rw [if_neg hmail]

/-- Witness for C9 (amended): the external-id tier at a concrete client
and user, and the weak raw-email tier at the client of the
counterexample with a user carrying that address on file. -/
theorem resolution_three_tiers_witness :
    get_remote_zd_user_for_local_user client9b localUser9b = (some ru9, true) ∧
    get_remote_zd_user_for_local_user client9
      ⟨3, "Cem", "ada@example.com", []⟩ = (some ru9, false) := by
  constructor
  · exact (resolution_three_tiers client9b localUser9b).1 ru9 [] rfl
  · exact (resolution_three_tiers client9 ⟨3, "Cem", "ada@example.com", []⟩).2.1
      rfl (by decide) ru9 [] rfl

/-- C10 counterexample: storing a comment with the already-used remote
comment id 5 under the other, distinct ticket fails with an integrity
error — the database-level `unique=True` on `Comment.zendesk_id` is
global, so a comment with the same remote comment id cannot exist under
each of two distinct tickets, refuting the claim. -/
theorem comment_same_id_distinct_tickets_fails :
    update_or_create_comment db10 5 2 0 (some "again") true 400 =
      Except.error PyErr.integrityError := by
  decide

/-- C10 (amended): the sync upsert looks comments up by the pair
(remote comment id, ticket): re-syncing a comment whose pair is already
present updates that row in place — successfully, with no row added and
the `created` flag false; but inserting the same remote comment id under
a distinct ticket (pair absent, id present) violates the global
uniqueness of remote comment ids and fails with an integrity error
instead of creating a second row. -/
theorem comment_upsert_pair_scoped (s : DB) (zid tpk apk : Int)
    (body : Option String) (pub : Bool) (ca : Int) :
    (∀ c, s.comments.find? (fun v => v.zendesk_id == zid && v.ticket == tpk) = some c →
      update_or_create_comment s zid tpk apk body pub ca =
        Except.ok
          ({ s with comments := s.comments.map (fun v =>
              if v.id == c.id then commentWithDefaults c apk body pub ca else v) },
           commentWithDefaults c apk body pub ca,
           false) ∧
      ∀ s' row created, update_or_create_comment s zid tpk apk body pub ca =
          Except.ok (s', row, created) → s'.comments.length = s.comments.length) ∧
    (s.comments.find? (fun v => v.zendesk_id == zid && v.ticket == tpk) = none →
      (∃ c ∈ s.comments, c.zendesk_id = zid) →
      update_or_create_comment s zid tpk apk body pub ca =
        Except.error PyErr.integrityError) := by
  constructor
  · intro c hfind
    constructor
    · unfold update_or_create_comment
      rw [hfind]
      rfl
    · intro s' row created hok
      unfold update_or_create_comment at hok
      rw [hfind] at hok
      simp only [Except.ok.injEq, Prod.mk.injEq] at hok
      rw [← hok.1]
      simp
  · intro hfind hex
    unfold update_or_create_comment
    rw [hfind]
    rw [if_pos ?_]
    rw [List.any_eq_true]
    obtain ⟨c, hc, hzid⟩ := hex
    exact ⟨c, hc, by rw [hzid]; simp⟩

/-- Witness for C10 (amended): re-syncing the comment of `db10` under its
own ticket updates in place (no new row, created = false), through the
theorem at that concrete input. -/
theorem comment_upsert_pair_scoped_witness :
    update_or_create_comment db10 5 1 0 (some "edited") true 350 =
      Except.ok
        ({ db10 with comments := [⟨3, 5, 1, 0, some "edited", true, 350⟩] },
         ⟨3, 5, 1, 0, some "edited", true, 350⟩, false) := by
  have h := ((comment_upsert_pair_scoped db10 5 1 0 (some "edited") true 350).1
    ⟨3, 5, 1, 0, some "hello", true, 300⟩ (by decide)).1
  rw [h]
  decide

/-- C1: evaluation of `store_event` at a well-formed payload whose `id`
parses to 42.  The source discards the result of `int(data["id"])`, never
assigns `remote_ticket_id`, and then executes `event.json = data`, an
assignment to the read-only `Event.json` property, which raises
`AttributeError` — so `store_event` does not return at all on a valid
payload, and the persisted event keeps `remote_ticket_id = None`,
contradicting the claim. -/
theorem store_event_valid_payload_bug :
    (store_event db0 payload42).2 =
      Except.error (PyErr.attributeError "cannot set attribute") ∧
    (store_event db0 payload42).1.events = [⟨0, payload42, none, none, none⟩] := by
  constructor
  · decide
  · decide

/-- C7: `store_event` does persist the raw payload first (even for a
malformed payload), and a missing `id` or a non-numeric `id` string is
signalled as the identifiable validation error; but for the payload
whose `id` is JSON null the `int()` call raises `TypeError`, which the
source catches nowhere (`except KeyError` / `except ValueError` only), so
an unsignalled exception escapes the boundary, contradicting the claim. -/
theorem store_event_error_signalling :
    ((store_event db0 c7null).2 =
        Except.error
          (PyErr.typeError "int() argument must be a string or a number, not NoneType") ∧
      (store_event db0 c7null).1.events = [⟨0, c7null, none, none, none⟩]) ∧
    (store_event db0 c7missing).2 =
      Except.error (PyErr.validationError "`id` not found in data") ∧
    (store_event db0 c7badstr).2 =
      Except.error (PyErr.validationError "`id` not found in data") ∧
    ((store_event db0 c7malformed).2 =
        Except.error (PyErr.validationError "payload is not parseable") ∧
      (store_event db0 c7malformed).1.events = [⟨0, c7malformed, none, none, none⟩]) := by
  refine ⟨⟨?_, ?_⟩, ?_, ?_, ?_, ?_⟩ <;> decide

/-- C2: evaluation of `process_event_and_record_errors` on both paths.
On the success path the source never clears the event's `error` field and
never sets its `ticket` link — the event comes back exactly as it went in
(still carrying "previous failure" and no ticket), contradicting the
claim's success half.  On the failure path (the comment insert trips the
global unique constraint) the claim's failure half does hold in this
evaluation: the local writes of the attempt are discarded — users,
tickets and comments equal the pre-call state — the full failure detail
is recorded on the event row, and the exception is re-raised. -/
theorem process_event_success_keeps_stale_error :
    (process_event_and_record_errors env42 db0 ev42 =
        (db42after, ev42, Except.ok [Notification.ticketCreated t42row ctx42]) ∧
      ev42.error = some "previous failure" ∧ ev42.ticket = none) ∧
    ((process_event_and_record_errors envCf dbCf evCf).2.2 =
        Except.error PyErr.integrityError ∧
      (process_event_and_record_errors envCf dbCf evCf).2.1.error =
        some (tracebackText PyErr.integrityError) ∧
      (process_event_and_record_errors envCf dbCf evCf).1.users = dbCf.users ∧
      (process_event_and_record_errors envCf dbCf evCf).1.tickets = dbCf.tickets ∧
      (process_event_and_record_errors envCf dbCf evCf).1.comments = dbCf.comments ∧
      (process_event_and_record_errors envCf dbCf evCf).1.events =
        [⟨50, "\x7b\"id\": 42\x7d", some 42,
          some (tracebackText PyErr.integrityError), none⟩]) := by
  refine ⟨⟨?_, ?_, ?_⟩, ?_, ?_, ?_, ?_, ?_, ?_⟩ <;> decide

/-- C3: whenever `process_event` completes, it publishes exactly one
notification; it is the "ticket created" signal precisely when the sync
reported the ticket row as newly created and the post-sync comment list
is empty, and in every other case it is a single "ticket updated" signal
carrying the computed diff over the captured context. -/
theorem process_event_notification_rule (env : Env) (s : DB) (e : EventRow)
    (s' : DB) (ns : List Notification)
    (h : process_event env s e = Except.ok (s', ns)) :
    ns.length = 1 ∧
    ∃ tid t created,
      eventTicketId e = Except.ok tid ∧
      sync_ticket_id env s tid = Except.ok (s', t, created) ∧
      ns = (if created && (ticketCommentsOf s' t.id).isEmpty then
              [Notification.ticketCreated t
                ⟨s.tickets.find? (fun x => x.zendesk_id == tid), t,
                 (match s.tickets.find? (fun x => x.zendesk_id == tid) with
                  | some pt => ticketCommentsOf s pt.id
                  | none => []), ticketCommentsOf s' t.id⟩]
            else
              [Notification.ticketUpdated t
                (get_updates
                  ⟨s.tickets.find? (fun x => x.zendesk_id == tid), t,
                   (match s.tickets.find? (fun x => x.zendesk_id == tid) with
                    | some pt => ticketCommentsOf s pt.id
                    | none => []), ticketCommentsOf s' t.id⟩)
                ⟨s.tickets.find? (fun x => x.zendesk_id == tid), t,
                 (match s.tickets.find? (fun x => x.zendesk_id == tid) with
                  | some pt => ticketCommentsOf s pt.id
                  | none => []), ticketCommentsOf s' t.id⟩]) ∧
      ((∃ ctx, ns = [Notification.ticketCreated t ctx]) ↔
        (created = true ∧ ticketCommentsOf s' t.id = [])) := by
  unfold process_event at h
  cases hj : jsonLoads e.raw_data with
  | error err => rw [hj] at h; exact absurd h (by simp)
  | ok j =>
    rw [hj] at h
    dsimp only at h
    cases hsub : pySubscript j "id" with
    | error err => rw [hsub] at h; exact absurd h (by simp)
    | ok v =>
      rw [hsub] at h
      dsimp only at h
      cases hint : pyInt v with
      | error err => rw [hint] at h; exact absurd h (by simp)
      | ok tid =>
        rw [hint] at h
        dsimp only at h
        cases hsync : sync_ticket_id env s tid with
        | error err => rw [hsync] at h; exact absurd h (by simp)
        | ok res =>
          rw [hsync] at h
          obtain ⟨s2, t, created⟩ := res
          dsimp only at h
          by_cases hcond : (created && (ticketCommentsOf s2 t.id).isEmpty) = true
          · rw [if_pos hcond] at h
            simp only [Except.ok.injEq, Prod.mk.injEq] at h
            obtain ⟨hs, hns⟩ := h
            subst hs
            subst hns
            refine ⟨rfl, tid, t, created,
              by simp [eventTicketId, hj, hsub, hint], hsync, ?_, ?_⟩
            · rw [if_pos hcond]
            · constructor
              · intro _
                rw [Bool.and_eq_true, List.isEmpty_iff] at hcond
                exact hcond
              · intro _
                exact ⟨_, rfl⟩
          · rw [if_neg hcond] at h
            simp only [Except.ok.injEq, Prod.mk.injEq] at h
            obtain ⟨hs, hns⟩ := h
            subst hs
            subst hns
            refine ⟨rfl, tid, t, created,
              by simp [eventTicketId, hj, hsub, hint], hsync, ?_, ?_⟩
            · rw [if_neg hcond]
            · constructor
              · intro ⟨ctx, hctx⟩
                exact absurd hctx (by simp)
              · intro ⟨hc, hempty⟩
                rw [Bool.and_eq_true] at hcond
                exact absurd ⟨hc, List.isEmpty_iff.mpr hempty⟩ hcond

/-- Witness for C3: the theorem applied to the concrete end-to-end run of
the spec's example — payload with id "42", ticket unknown locally, remote
fetch returns ticket 42 with zero comments — which publishes exactly the
single "ticket created" notification. -/
theorem process_event_notification_rule_witness :
    process_event env42 db0 evC3 =
      Except.ok (db42after, [Notification.ticketCreated t42row ctx42]) ∧
    [Notification.ticketCreated t42row ctx42].length = 1 :=
  ⟨by decide,
   (process_event_notification_rule env42 db0 evC3 db42after
     [Notification.ticketCreated t42row ctx42] (by decide)).1⟩

/-! ## Claim C5: idempotence of `sync` under unchanged remote state

The proof tracks, for every row the first sync wrote, a "settled"
predicate saying the row holds exactly the defaults the remote object
dictates; re-running any upsert on a settled row is a no-op.  The
auto-increment well-formedness `DB.wf` (primary keys below the counter
and pairwise distinct) rules out a fresh key colliding with an existing
row. -/

theorem map_eq_self_of {α : Type} (l : List α) (f : α → α) (h : ∀ x ∈ l, f x = x) :
    l.map f = l := by
  induction l with
  | nil => rfl
  | cons a as ih =>
    rw [List.map_cons, h a (List.mem_cons_self a as),
      ih (fun x hx => h x (List.mem_cons_of_mem a hx))]

theorem map_key_map {α β : Type} (l : List α) (f : α → α) (g : α → β)
    (h : ∀ x ∈ l, g (f x) = g x) : (l.map f).map g = l.map g := by
  induction l with
  | nil => rfl
  | cons a as ih =>
    simp only [List.map_cons]
    rw [h a (by simp), ih (fun x hx => h x (by simp [hx]))]

theorem find?_map_of_pred {α : Type} (p : α → Bool) (f : α → α) :
    ∀ (l : List α) (u : α), l.find? p = some u → (∀ v ∈ l, p (f v) = p v) →
      (l.map f).find? p = some (f u) := by
  intro l
  induction l with
  | nil => intro u h _; simp at h
  | cons a as ih =>
    intro u h hp
    by_cases hpa : p a = true
    · rw [List.find?_cons_of_pos _ hpa] at h
      have ha : a = u := by injection h
      subst ha
      rw [List.map_cons, List.find?_cons_of_pos _ (by rw [hp a (by simp)]; exact hpa)]
    · rw [List.find?_cons_of_neg _ hpa] at h
      rw [List.map_cons, List.find?_cons_of_neg _ (by rw [hp a (by simp)]; exact hpa)]
      exact ih u h (fun v hv => hp v (by simp [hv]))

theorem find?_map_invariant {α : Type} (p : α → Bool) (f : α → α) (l : List α) (u : α)
    (h : l.find? p = some u) (hp : ∀ v ∈ l, p (f v) = p v) (hfix : f u = u) :
    (l.map f).find? p = some u := by
  have h2 := find?_map_of_pred p f l u h hp
  rw [hfix] at h2
  exact h2

theorem assocUser_mem :
    ∀ (umap : List (RemoteZendeskUser × Int)) (r : RemoteZendeskUser) (pk : Int),
      assocUser umap r = some pk → (r, pk) ∈ umap := by
  intro umap
  induction umap with
  | nil => intro r pk h; exact absurd h (by simp [assocUser])
  | cons a as ih =>
    intro r pk h
    obtain ⟨k, v⟩ := a
    unfold assocUser at h
    by_cases hk : k = r
    · rw [if_pos hk] at h
      have hv : v = pk := by injection h
      subst hk; subst hv
      exact List.mem_cons_self _ _
    · rw [if_neg hk] at h
      exact List.mem_cons_of_mem _ (ih r pk h)

theorem nodup_bound_map_update {α : Type} (l : List α) (f : α → α) (g : α → Int) (n : Int)
    (hg : ∀ x ∈ l, g (f x) = g x) (hb : ∀ x ∈ l, g x < n) (hnd : (l.map g).Nodup) :
    (∀ x ∈ l.map f, g x < n) ∧ ((l.map f).map g).Nodup := by
  constructor
  · intro x hx
    obtain ⟨v, hv, rfl⟩ := List.mem_map.mp hx
    rw [hg v hv]
    exact hb v hv
  · rw [map_key_map l f g hg]
    exact hnd

theorem nodup_bound_append {α : Type} (l : List α) (x : α) (g : α → Int) (n : Int)
    (hb : ∀ y ∈ l, g y < n) (hnd : (l.map g).Nodup) (hx : g x = n) :
    (∀ y ∈ l ++ [x], g y < n + 1) ∧ ((l ++ [x]).map g).Nodup := by
  constructor
  · intro y hy
    rcases List.mem_append.mp hy with h | h
    · have := hb y h
      omega
    · have hyx : y = x := by simpa using h
      subst hyx
      omega
  · rw [List.map_append, List.nodup_append]
    refine ⟨hnd, by simp, ?_⟩
    intro a ha hb2
    have hax : a = g x := by simpa using hb2
    obtain ⟨v, hv, rfl⟩ := List.mem_map.mp ha
    have := hb v hv
    omega

/-- The row with a matched key keeps its key under the Django UPDATE
rewrite, and rows are only rewritten at the matched primary key. -/
theorem user_upsert_wf (s : DB) (zid : Int) (ul : Option Int) (em : Option String)
    (ca : Int) (nm : Option String) (hwf : DB.wf s) :
    DB.wf (update_or_create_user s zid ul em ca nm).1 := by
  obtain ⟨hub, hund, htb, htnd, hcb, hcnd⟩ := hwf
  unfold update_or_create_user
  cases hf : s.users.find? (fun u => u.zendesk_id == zid) with
  | some u =>
    simp only [hf]
    have hg : ∀ x ∈ s.users,
        ((fun v => if v.id == u.id then
            { u with user := ul, email := em, created_at := ca, name := nm } else v) x).id
          = x.id := by
      intro x hx
      by_cases hxe : (x.id == u.id) = true
      · have hxu : x.id = u.id := by simpa using hxe
        simp [hxe, hxu]
      · simp [hxe]
    have h2 := nodup_bound_map_update s.users _ (fun v => v.id) s.nextPk hg hub hund
    exact ⟨h2.1, h2.2, htb, htnd, hcb, hcnd⟩
  | none =>
    simp only [hf]
    have h2 := nodup_bound_append s.users
      (⟨s.nextPk, zid, nm, em, ul, ca⟩ : ZendeskUserRow) (fun v => v.id) s.nextPk hub hund rfl
    refine ⟨h2.1, h2.2, ?_, htnd, ?_, hcnd⟩
    · intro t ht
      have := htb t ht
      show t.id < s.nextPk + 1
      omega
    · intro c hc
      have := hcb c hc
      show c.id < s.nextPk + 1
      omega

theorem mem_key_unique {α : Type} (l : List α) (g : α → Int)
    (hnd : (l.map g).Nodup) {a b : α} (ha : a ∈ l) (hb : b ∈ l) (hg : g a = g b) :
    a = b :=
  List.inj_on_of_nodup_map hnd ha hb hg

/-- Establishment, frames and preservation for the user upsert
`update_or_create_local_zd_user_for_remote_zd_user`. -/
theorem local_zd_user_upsert_facts (env : Env) (s : DB) (r : RemoteZendeskUser)
    (hwf : DB.wf s) :
    DB.wf (update_or_create_local_zd_user_for_remote_zd_user env s r).1 ∧
    (update_or_create_local_zd_user_for_remote_zd_user env s r).1.tickets = s.tickets ∧
    (update_or_create_local_zd_user_for_remote_zd_user env s r).1.comments = s.comments ∧
    (update_or_create_local_zd_user_for_remote_zd_user env s r).1.events = s.events ∧
    UserSettled env (update_or_create_local_zd_user_for_remote_zd_user env s r).1.users r
      (update_or_create_local_zd_user_for_remote_zd_user env s r).2.id ∧
    (∀ (r' : RemoteZendeskUser) (pk' : Int), r'.id ≠ r.id →
      UserSettled env s.users r' pk' →
      UserSettled env (update_or_create_local_zd_user_for_remote_zd_user env s r).1.users
        r' pk') := by
  have hwf2 := user_upsert_wf s r.id (env.localUserForExternalId r.external_id) r.email
    r.created_at r.name hwf
  obtain ⟨hub, hund, _, _, _, _⟩ := hwf
  unfold update_or_create_local_zd_user_for_remote_zd_user at *
  unfold update_or_create_user at *
  cases hf : s.users.find? (fun v => v.zendesk_id == r.id) with
  | some u =>
    rw [hf] at hwf2
    simp only [hf]
    have humem : u ∈ s.users := List.mem_of_find?_eq_some hf
    have hp : ∀ v ∈ s.users,
        (((fun v => if v.id == u.id then { u with user := env.localUserForExternalId r.external_id, email := r.email, created_at := r.created_at, name := r.name } else v) v).zendesk_id == r.id) = (v.zendesk_id == r.id) := by
      intro v hv
      by_cases hve : (v.id == u.id) = true
      · have : v = u := mem_key_unique s.users (fun x => x.id) hund hv humem (by simpa using hve)
        subst this
        simp [hve]
      · simp [hve]
    refine ⟨hwf2, by trivial, by trivial, by trivial, ?_, ?_⟩
    · refine ⟨{ u with user := env.localUserForExternalId r.external_id, email := r.email, created_at := r.created_at, name := r.name }, ?_, rfl, rfl, rfl, rfl, rfl⟩
      have h2 := find?_map_of_pred (fun v => v.zendesk_id == r.id) _ s.users u hf hp
      have hfu : (if (u.id == u.id) = true then { u with user := env.localUserForExternalId r.external_id, email := r.email, created_at := r.created_at, name := r.name } else u) = { u with user := env.localUserForExternalId r.external_id, email := r.email, created_at := r.created_at, name := r.name } := by simp
      rw [hfu] at h2
      exact h2
    · intro r' pk' hne hs'
      obtain ⟨u', hfind', hid', hn', he', huu', hc'⟩ := hs'
      refine ⟨u', ?_, hid', hn', he', huu', hc'⟩
      have hfix : ((fun v => if v.id == u.id then { u with user := env.localUserForExternalId r.external_id, email := r.email, created_at := r.created_at, name := r.name } else v) u') = u' := by
        have hu'mem : u' ∈ s.users := List.mem_of_find?_eq_some hfind'
        by_cases hue : (u'.id == u.id) = true
        · have hequ : u' = u :=
            mem_key_unique s.users (fun x => x.id) hund hu'mem humem (by simpa using hue)
          have hz1 : u'.zendesk_id = r'.id := by
            have := List.find?_some hfind'
            simpa using this
          have hz2 : u.zendesk_id = r.id := by
            have := List.find?_some hf
            simpa using this
          rw [hequ, hz2] at hz1
          exact absurd hz1.symm hne
        · simp [hue]
      have hpres : ∀ v ∈ s.users, (((fun v => if v.id == u.id then { u with user := env.localUserForExternalId r.external_id, email := r.email, created_at := r.created_at, name := r.name } else v) v).zendesk_id == r'.id) = (v.zendesk_id == r'.id) := by
        intro v hv
        by_cases hve : (v.id == u.id) = true
        · have : v = u := mem_key_unique s.users (fun x => x.id) hund hv humem (by simpa using hve)
          subst this
          simp [hve]
        · simp [hve]
      have h2 := find?_map_invariant (fun v => v.zendesk_id == r'.id)
        (fun v => if v.id == u.id then { u with user := env.localUserForExternalId r.external_id, email := r.email, created_at := r.created_at, name := r.name } else v)
        s.users u' hfind' hpres hfix
      exact h2
  | none =>
    rw [hf] at hwf2
    simp only [hf]
    refine ⟨hwf2, by trivial, by trivial, by trivial, ?_, ?_⟩
    · refine ⟨⟨s.nextPk, r.id, r.name, r.email, env.localUserForExternalId r.external_id,
        r.created_at⟩, ?_, rfl, rfl, rfl, rfl, rfl⟩
      rw [List.find?_append, hf]
      simp [List.find?]
    · intro r' pk' hne hs'
      obtain ⟨u', hfind', hid', hn', he', huu', hc'⟩ := hs'
      refine ⟨u', ?_, hid', hn', he', huu', hc'⟩
      rw [List.find?_append, hfind']
      rfl

/-- Re-running the user upsert on a settled user row is a no-op. -/
theorem local_zd_user_upsert_noop (env : Env) (s : DB) (r : RemoteZendeskUser) (pk : Int)
    (hnd : (s.users.map (fun u => u.id)).Nodup)
    (hs : UserSettled env s.users r pk) :
    ∃ u, update_or_create_local_zd_user_for_remote_zd_user env s r = (s, u) ∧ u.id = pk := by
  obtain ⟨u, hfind, hid, hn, he, huu, hc⟩ := hs
  have humem : u ∈ s.users := List.mem_of_find?_eq_some hfind
  refine ⟨u, ?_, hid⟩
  unfold update_or_create_local_zd_user_for_remote_zd_user update_or_create_user
  rw [hfind]
  dsimp only
  have hu' : ({ u with user := env.localUserForExternalId r.external_id, email := r.email, created_at := r.created_at, name := r.name } : ZendeskUserRow) = u := by
    rw [← hn, ← he, ← huu, ← hc]
  have hmap : s.users.map (fun v => if v.id == u.id then { u with user := env.localUserForExternalId r.external_id, email := r.email, created_at := r.created_at, name := r.name } else v) = s.users := by
    apply map_eq_self_of
    intro v hv
    by_cases hve : (v.id == u.id) = true
    · have : v = u := mem_key_unique s.users (fun x => x.id) hnd hv humem (by simpa using hve)
      subst this
      simp only [hve, if_pos]
      exact hu'
    · simp [hve]
  rw [hu'] at hmap
  rw [hu', hmap]

theorem ticket_upsert_wf (s : DB) (zid req : Int) (sub desc url : Option String)
    (st : Option String) (cf tg : Option String) (ca : Int) (ua : Option Int)
    (s2 : DB) (t : TicketRow) (c : Bool) (hwf : DB.wf s)
    (hok : update_or_create_ticket s zid req sub desc url st cf tg ca ua
      = Except.ok (s2, t, c)) :
    DB.wf s2 := by
  obtain ⟨hub, hund, htb, htnd, hcb, hcnd⟩ := hwf
  unfold update_or_create_ticket at hok
  cases hf : s.tickets.find? (fun t => t.zendesk_id == zid) with
  | some t0 =>
    rw [hf] at hok
    dsimp only at hok
    cases st with
    | none => exact absurd hok (by simp)
    | some v =>
      simp only [Except.ok.injEq, Prod.mk.injEq] at hok
      obtain ⟨hs2, _, _⟩ := hok
      subst hs2
      have hg : ∀ x ∈ s.tickets,
          ((fun w => if w.id == t0.id then { t0 with requester := req, subject := sub, description := desc, url := url, status := some v, custom_fields := cf, tags := tg, created_at := ca, updated_at := ua } else w) x).id = x.id := by
        intro x hx
        by_cases hxe : (x.id == t0.id) = true
        · have hxu : x.id = t0.id := by simpa using hxe
          simp [hxe, hxu]
        · simp [hxe]
      have h2 := nodup_bound_map_update s.tickets _ (fun v => v.id) s.nextPk hg htb htnd
      exact ⟨hub, hund, h2.1, h2.2, hcb, hcnd⟩
  | none =>
    rw [hf] at hok
    dsimp only at hok
    cases st with
    | none => exact absurd hok (by simp)
    | some v =>
      simp only [Except.ok.injEq, Prod.mk.injEq] at hok
      obtain ⟨hs2, _, _⟩ := hok
      subst hs2
      have h2 := nodup_bound_append s.tickets
        (⟨s.nextPk, zid, req, sub, desc, url, some v, cf, tg, ca, ua⟩ : TicketRow)
        (fun v => v.id) s.nextPk htb htnd rfl
      refine ⟨?_, hund, h2.1, h2.2, ?_, hcnd⟩
      · intro u hu
        have := hub u hu
        show u.id < s.nextPk + 1
        omega
      · intro c2 hc2
        have := hcb c2 hc2
        show c2.id < s.nextPk + 1
        omega

/-- The successful create path of the ticket upsert, taken when no row
with the remote ticket id exists: the status was recognized and the
returned row and state are the fresh append. -/
theorem ticket_upsert_create_facts (s : DB) (rt : RemoteTicket) (reqPk : Int)
    (s2 : DB) (t : TicketRow) (c : Bool)
    (hnone : s.tickets.find? (fun v => v.zendesk_id == rt.id) = none)
    (hok : update_or_create_ticket s rt.id reqPk rt.subject rt.description rt.url
        (map_remote_status rt.status) rt.custom_fields rt.tags rt.created_at rt.updated_at
      = Except.ok (s2, t, c)) :
    ∃ v, map_remote_status rt.status = some v ∧
      t = ⟨s.nextPk, rt.id, reqPk, rt.subject, rt.description, rt.url, some v, rt.custom_fields, rt.tags, rt.created_at, rt.updated_at⟩ ∧
      s2 = { s with tickets := s.tickets ++ [t], nextPk := s.nextPk + 1 } ∧
      c = true := by
  unfold update_or_create_ticket at hok
  rw [hnone] at hok
  dsimp only at hok
  cases hst : map_remote_status rt.status with
  | none =>
    rw [hst] at hok
    exact absurd hok (by simp)
  | some v =>
    rw [hst] at hok
    dsimp only at hok
    simp only [Except.ok.injEq, Prod.mk.injEq] at hok
    obtain ⟨hs2, ht, hc⟩ := hok
    refine ⟨v, rfl, ht.symm, ?_, hc.symm⟩
    rw [← hs2, ← ht]

/-- A row carrying exactly the ticket defaults, appended to a table with
no other row for the remote id, is settled. -/
theorem ticket_settled_of_rows (tickets : List TicketRow) (rt : RemoteTicket)
    (reqPk : Int) (t : TicketRow)
    (hnone : tickets.find? (fun v => v.zendesk_id == rt.id) = none)
    (hz : t.zendesk_id = rt.id) (hreq : t.requester = reqPk)
    (hsub : t.subject = rt.subject) (hdesc : t.description = rt.description)
    (hurl : t.url = rt.url) (hst : t.status = map_remote_status rt.status)
    (hcf : t.custom_fields = rt.custom_fields) (htg : t.tags = rt.tags)
    (hca : t.created_at = rt.created_at) (hua : t.updated_at = rt.updated_at) :
    TicketSettled (tickets ++ [t]) rt reqPk t := by
  refine ⟨?_, hreq, hsub, hdesc, hurl, hst, hcf, htg, hca, hua⟩
  rw [List.find?_append, hnone]
  simp [List.find?, hz]

/-- Re-running the ticket upsert on a settled ticket row is a no-op
(succeeding with no writes); the settled row's recognized status clears
the NOT NULL check again. -/
theorem ticket_upsert_noop (s : DB) (rt : RemoteTicket) (reqPk : Int) (t : TicketRow)
    (v : String)
    (hnd : (s.tickets.map (fun x => x.id)).Nodup)
    (hstv : map_remote_status rt.status = some v)
    (hs : TicketSettled s.tickets rt reqPk t) :
    update_or_create_ticket s rt.id reqPk rt.subject rt.description rt.url
        (map_remote_status rt.status) rt.custom_fields rt.tags rt.created_at rt.updated_at
      = Except.ok (s, t, false) := by
  obtain ⟨hfind, hreq, hsub, hdesc, hurl, hst, hcf, htg, hca, hua⟩ := hs
  have htmem : t ∈ s.tickets := List.mem_of_find?_eq_some hfind
  unfold update_or_create_ticket
  rw [hfind]
  dsimp only
  rw [hstv]
  dsimp only
  have ht' : ({ t with requester := reqPk, subject := rt.subject, description := rt.description, url := rt.url, status := some v, custom_fields := rt.custom_fields, tags := rt.tags, created_at := rt.created_at, updated_at := rt.updated_at } : TicketRow) = t := by
    rw [← hstv, ← hreq, ← hsub, ← hdesc, ← hurl, ← hst, ← hcf, ← htg, ← hca, ← hua]
  have hmap : s.tickets.map (fun w => if w.id == t.id then { t with requester := reqPk, subject := rt.subject, description := rt.description, url := rt.url, status := some v, custom_fields := rt.custom_fields, tags := rt.tags, created_at := rt.created_at, updated_at := rt.updated_at } else w) = s.tickets := by
    apply map_eq_self_of
    intro w hw
    by_cases hwe : (w.id == t.id) = true
    · have : w = t := mem_key_unique s.tickets (fun x => x.id) hnd hw htmem (by simpa using hwe)
      subst this
      simp only [hwe, if_pos]
      exact ht'
    · simp [hwe]
  rw [ht'] at hmap
  rw [ht', hmap]

/-- Establishment, frames, well-formedness and preservation for a
successful comment upsert. -/
theorem comment_upsert_ok_facts (s : DB) (zid tpk apk : Int) (body : Option String)
    (pub : Bool) (ca : Int) (s2 : DB) (c : CommentRow) (created : Bool)
    (hwf : DB.wf s)
    (hok : update_or_create_comment s zid tpk apk body pub ca = Except.ok (s2, c, created)) :
    DB.wf s2 ∧ s2.users = s.users ∧ s2.tickets = s.tickets ∧ s2.events = s.events ∧
    (∃ c', s2.comments.find? (fun v => v.zendesk_id == zid && v.ticket == tpk) = some c' ∧
      c'.author = apk ∧ c'.body = body ∧ c'.public = pub ∧ c'.created_at = ca) ∧
    (∀ (rc' : RemoteComment) (tpk' apk' : Int), rc'.id ≠ zid →
      CommentSettled s.comments rc' tpk' apk' → CommentSettled s2.comments rc' tpk' apk') := by
  obtain ⟨hub, hund, htb, htnd, hcb, hcnd⟩ := hwf
  unfold update_or_create_comment at hok
  cases hf : s.comments.find? (fun v => v.zendesk_id == zid && v.ticket == tpk) with
  | some c0 =>
    rw [hf] at hok
    dsimp only at hok
    have hc0mem : c0 ∈ s.comments := List.mem_of_find?_eq_some hf
    simp only [Except.ok.injEq, Prod.mk.injEq] at hok
    obtain ⟨hs2, hcc, _⟩ := hok
    subst hs2
    have hg : ∀ x ∈ s.comments,
        ((fun v => if v.id == c0.id then { c0 with author := apk, body := body, public := pub, created_at := ca } else v) x).id = x.id := by
      intro x hx
      by_cases hxe : (x.id == c0.id) = true
      · have hxu : x.id = c0.id := by simpa using hxe
        simp [hxe, hxu]
      · simp [hxe]
    have h2 := nodup_bound_map_update s.comments _ (fun v => v.id) s.nextPk hg hcb hcnd
    refine ⟨⟨hub, hund, htb, htnd, h2.1, h2.2⟩, rfl, rfl, rfl, ?_, ?_⟩
    · refine ⟨{ c0 with author := apk, body := body, public := pub, created_at := ca },
        ?_, rfl, rfl, rfl, rfl⟩
      have hp : ∀ v ∈ s.comments,
          (((fun v => if v.id == c0.id then { c0 with author := apk, body := body, public := pub, created_at := ca } else v) v).zendesk_id == zid &&
            ((fun v => if v.id == c0.id then { c0 with author := apk, body := body, public := pub, created_at := ca } else v) v).ticket == tpk)
            = (v.zendesk_id == zid && v.ticket == tpk) := by
        intro v hv
        by_cases hve : (v.id == c0.id) = true
        · have : v = c0 :=
            mem_key_unique s.comments (fun x => x.id) hcnd hv hc0mem (by simpa using hve)
          subst this
          simp [hve]
        · simp [hve]
      have h3 := find?_map_of_pred
        (fun v => v.zendesk_id == zid && v.ticket == tpk) _ s.comments c0 hf hp
      have hfu : (if (c0.id == c0.id) = true then { c0 with author := apk, body := body, public := pub, created_at := ca } else c0) = { c0 with author := apk, body := body, public := pub, created_at := ca } := by
        simp
      rw [hfu] at h3
      exact h3
    · intro rc' tpk' apk' hne hs'
      obtain ⟨c', hfind', ha', hb', hp', hc'⟩ := hs'
      refine ⟨c', ?_, ha', hb', hp', hc'⟩
      have hc'mem : c' ∈ s.comments := List.mem_of_find?_eq_some hfind'
      have hfix : ((fun v => if v.id == c0.id then { c0 with author := apk, body := body, public := pub, created_at := ca } else v) c') = c' := by
        by_cases hue : (c'.id == c0.id) = true
        · have hequ : c' = c0 :=
            mem_key_unique s.comments (fun x => x.id) hcnd hc'mem hc0mem (by simpa using hue)
          have hz1 : c'.zendesk_id = rc'.id ∧ c'.ticket = tpk' := by
            have := List.find?_some hfind'
            simpa [Bool.and_eq_true] using this
          have hz2 : c0.zendesk_id = zid ∧ c0.ticket = tpk := by
            have := List.find?_some hf
            simpa [Bool.and_eq_true] using this
          have e1 := hz1.1
          rw [hequ, hz2.1] at e1
          exact absurd e1.symm hne
        · simp [hue]
      have hpres : ∀ v ∈ s.comments,
          (((fun v => if v.id == c0.id then { c0 with author := apk, body := body, public := pub, created_at := ca } else v) v).zendesk_id == rc'.id &&
            ((fun v => if v.id == c0.id then { c0 with author := apk, body := body, public := pub, created_at := ca } else v) v).ticket == tpk')
            = (v.zendesk_id == rc'.id && v.ticket == tpk') := by
        intro v hv
        by_cases hve : (v.id == c0.id) = true
        · have : v = c0 :=
            mem_key_unique s.comments (fun x => x.id) hcnd hv hc0mem (by simpa using hve)
          subst this
          simp [hve]
        · simp [hve]
      have h3 := find?_map_invariant
        (fun v => v.zendesk_id == rc'.id && v.ticket == tpk')
        (fun v => if v.id == c0.id then { c0 with author := apk, body := body, public := pub, created_at := ca } else v)
        s.comments c' hfind' hpres hfix
      exact h3
  | none =>
    rw [hf] at hok
    dsimp only at hok
    by_cases hany : (s.comments.any (fun v => v.zendesk_id == zid)) = true
    · rw [if_pos hany] at hok
      exact absurd hok (by simp)
    · rw [if_neg hany] at hok
      simp only [Except.ok.injEq, Prod.mk.injEq] at hok
      obtain ⟨hs2, _, _⟩ := hok
      subst hs2
      have h2 := nodup_bound_append s.comments
        (⟨s.nextPk, zid, tpk, apk, body, pub, ca⟩ : CommentRow) (fun v => v.id)
        s.nextPk hcb hcnd rfl
      refine ⟨⟨?_, hund, ?_, htnd, h2.1, h2.2⟩, rfl, rfl, rfl, ?_, ?_⟩
      · intro u hu
        have := hub u hu
        show u.id < s.nextPk + 1
        omega
      · intro t ht
        have := htb t ht
        show t.id < s.nextPk + 1
        omega
      · refine ⟨⟨s.nextPk, zid, tpk, apk, body, pub, ca⟩, ?_, rfl, rfl, rfl, rfl⟩
        rw [List.find?_append, hf]
        simp [List.find?]
      · intro rc' tpk' apk' hne hs'
        obtain ⟨c', hfind', ha', hb', hp', hc'⟩ := hs'
        refine ⟨c', ?_, ha', hb', hp', hc'⟩
        rw [List.find?_append, hfind']
        rfl

/-- Re-running the comment upsert on a settled comment row is a no-op. -/
theorem comment_upsert_noop (s : DB) (rc : RemoteComment) (tpk apk : Int)
    (hnd : (s.comments.map (fun x => x.id)).Nodup)
    (hs : CommentSettled s.comments rc tpk apk) :
    ∃ c, update_or_create_comment s rc.id tpk apk rc.body rc.public rc.created_at =
      Except.ok (s, c, false) := by
  obtain ⟨c, hfind, ha, hb, hp, hc⟩ := hs
  have hcmem : c ∈ s.comments := List.mem_of_find?_eq_some hfind
  refine ⟨c, ?_⟩
  unfold update_or_create_comment
  rw [hfind]
  dsimp only
  have hc' : ({ c with author := apk, body := rc.body, public := rc.public, created_at := rc.created_at } : CommentRow) = c := by
    rw [← ha, ← hb, ← hp, ← hc]
  have hmap : s.comments.map (fun v => if v.id == c.id then { c with author := apk, body := rc.body, public := rc.public, created_at := rc.created_at } else v) = s.comments := by
    apply map_eq_self_of
    intro v hv
    by_cases hve : (v.id == c.id) = true
    · have : v = c := mem_key_unique s.comments (fun x => x.id) hnd hv hcmem (by simpa using hve)
      subst this
      simp only [hve, if_pos]
      exact hc'
    · simp [hve]
  rw [hc'] at hmap
  rw [hc', hmap]

theorem user_settled_unique (env : Env) (users : List ZendeskUserRow)
    (r : RemoteZendeskUser) (pk pk' : Int)
    (h1 : UserSettled env users r pk) (h2 : UserSettled env users r pk') : pk = pk' := by
  obtain ⟨u1, hf1, hid1, _⟩ := h1
  obtain ⟨u2, hf2, hid2, _⟩ := h2
  rw [hf1] at hf2
  have hu : u1 = u2 := by injection hf2
  rw [← hid1, ← hid2, hu]

theorem assocUser_none :
    ∀ (umap : List (RemoteZendeskUser × Int)) (r : RemoteZendeskUser),
      assocUser umap r = none → ∀ p ∈ umap, p.1 ≠ r := by
  intro umap
  induction umap with
  | nil => intro r _ p hp; exact absurd hp (by simp)
  | cons a as ih =>
    intro r h p hp
    obtain ⟨k, v⟩ := a
    unfold assocUser at h
    by_cases hk : k = r
    · rw [if_pos hk] at h
      exact absurd h (by simp)
    · rw [if_neg hk] at h
      rcases List.mem_cons.mp hp with h1 | h1
      · subst h1
        exact hk
      · exact ih r h p h1

/-- Forward facts of one run of the `sync_comments` loop: the final state
is well formed, tickets and events are untouched, the `user_map` entries
stay settled, previously settled comments stay settled, and every
processed remote comment ends settled with some author key. -/
theorem sync_comments_go_forward (env : Env) (lt : TicketRow) :
    ∀ (rem : List RemoteComment) (s : DB) (umap : List (RemoteZendeskUser × Int))
      (acc : List CommentRow) (done : List (RemoteComment × Int)) (s' : DB)
      (cs : List CommentRow),
      DB.wf s →
      UmapSettled env s.users umap →
      (∀ rc ∈ rem, ∀ rc' ∈ rem, rc.author.id = rc'.author.id → rc.author = rc'.author) →
      (∀ rc ∈ rem, ∀ p ∈ umap, rc.author.id = p.1.id → rc.author = p.1) →
      ((rem.map (fun rc => rc.id)).Nodup) →
      (∀ d ∈ done, CommentSettled s.comments d.1 lt.id d.2) →
      (∀ d ∈ done, ∀ rc ∈ rem, d.1.id ≠ rc.id) →
      sync_comments_go env lt s umap rem acc = Except.ok (s', cs) →
      DB.wf s' ∧ s'.tickets = s.tickets ∧ s'.events = s.events ∧
      UmapSettled env s'.users umap ∧
      (∀ d ∈ done, CommentSettled s'.comments d.1 lt.id d.2) ∧
      (∀ rc ∈ rem, ∃ apk, UserSettled env s'.users rc.author apk ∧
        CommentSettled s'.comments rc lt.id apk) := by
  intro rem
  induction rem with
  | nil =>
    intro s umap acc done s' cs hwf humap _ _ _ hdone _ hgo
    unfold sync_comments_go at hgo
    simp only [Except.ok.injEq, Prod.mk.injEq] at hgo
    obtain ⟨hs, _⟩ := hgo
    subst hs
    exact ⟨hwf, rfl, rfl, humap, hdone, by simp⟩
  | cons rc rest ih =>
    intro s umap acc done s' cs hwf humap hcons hconsu hnd hdone hdisj hgo
    unfold sync_comments_go at hgo
    cases hassoc : assocUser umap rc.author with
    | some pk =>
      have hra : resolve_author env s umap rc.author = (s, pk, umap) := by
        unfold resolve_author
        rw [hassoc]
      rw [hra] at hgo
      dsimp only at hgo
      cases hcu : update_or_create_comment s rc.id lt.id pk rc.body rc.public
          rc.created_at with
      | error e =>
        rw [hcu] at hgo
        exact absurd hgo (by simp)
      | ok res =>
        rw [hcu] at hgo
        dsimp only at hgo
        obtain ⟨sB, c, created⟩ := res
        have hfacts := comment_upsert_ok_facts s rc.id lt.id pk rc.body rc.public
          rc.created_at sB c created hwf hcu
        obtain ⟨hwfB, huB, htB, heB, hestB, hpresB⟩ := hfacts
        have hih := ih sB umap (acc ++ [c]) (done ++ [(rc, pk)]) s' cs hwfB
          (by intro p hp; rw [huB]; exact humap p hp)
          (by intro a ha b hb hab; exact hcons a (by simp [ha]) b (by simp [hb]) hab)
          (by intro a ha p hp hap; exact hconsu a (by simp [ha]) p hp hap)
          (by simpa using hnd.of_cons)
          (by
            intro d hd
            rcases List.mem_append.mp hd with h1 | h1
            · exact hpresB d.1 lt.id d.2 (hdisj d h1 rc (by simp)) (hdone d h1)
            · have hd2 : d = (rc, pk) := by simpa using h1
              subst hd2
              exact hestB)
          (by
            intro d hd a ha
            rcases List.mem_append.mp hd with h1 | h1
            · exact hdisj d h1 a (by simp [ha])
            · have hd2 : d = (rc, pk) := by simpa using h1
              subst hd2
              have := (List.nodup_cons.mp hnd).1
              intro hcontra
              exact this (List.mem_map.mpr ⟨a, ha, hcontra.symm⟩))
          hgo
        obtain ⟨hwf', ht', he', humap', hdone', hrest'⟩ := hih
        refine ⟨hwf', by rw [ht', htB], by rw [he', heB], humap', ?_, ?_⟩
        · intro d hd
          exact hdone' d (by simp [hd])
        · intro a ha
          rcases List.mem_cons.mp ha with h1 | h1
          · subst h1
            refine ⟨pk, ?_, ?_⟩
            · exact humap' _ (assocUser_mem umap a.author pk hassoc)
            · exact hdone' (a, pk) (by simp)
          · exact hrest' a h1
    | none =>
      have hkeys := assocUser_none umap rc.author hassoc
      have hufacts := local_zd_user_upsert_facts env s rc.author hwf
      obtain ⟨hwfU, htU, hcU, heU, hsetU, hpresU⟩ := hufacts
      have hra : resolve_author env s umap rc.author =
          ((update_or_create_local_zd_user_for_remote_zd_user env s rc.author).1,
           (update_or_create_local_zd_user_for_remote_zd_user env s rc.author).2.id,
           umap ++ [(rc.author,
             (update_or_create_local_zd_user_for_remote_zd_user env s rc.author).2.id)]) := by
        unfold resolve_author
        rw [hassoc]
      rw [hra] at hgo
      dsimp only at hgo
      set sU := (update_or_create_local_zd_user_for_remote_zd_user env s rc.author).1
        with hsU
      set upk := (update_or_create_local_zd_user_for_remote_zd_user env s rc.author).2.id
        with hupk
      cases hcu : update_or_create_comment sU rc.id lt.id upk rc.body rc.public
          rc.created_at with
      | error e =>
        rw [hcu] at hgo
        exact absurd hgo (by simp)
      | ok res =>
        rw [hcu] at hgo
        dsimp only at hgo
        obtain ⟨sB, c, created⟩ := res
        have hfacts := comment_upsert_ok_facts sU rc.id lt.id upk rc.body rc.public
          rc.created_at sB c created hwfU hcu
        obtain ⟨hwfB, huB, htB, heB, hestB, hpresB⟩ := hfacts
        have humapU : UmapSettled env sU.users (umap ++ [(rc.author, upk)]) := by
          intro p hp
          rcases List.mem_append.mp hp with h1 | h1
          · refine hpresU p.1 p.2 ?_ (humap p h1)
            intro hide
            exact (hkeys p h1) (hcons rc (by simp) rc (by simp) rfl ▸ (hconsu rc (by simp) p h1 hide.symm).symm)
          · have hp2 : p = (rc.author, upk) := by simpa using h1
            subst hp2
            exact hsetU
        have hih := ih sB (umap ++ [(rc.author, upk)]) (acc ++ [c]) (done ++ [(rc, upk)])
          s' cs hwfB
          (by intro p hp; rw [huB]; exact humapU p hp)
          (by intro a ha b hb hab; exact hcons a (by simp [ha]) b (by simp [hb]) hab)
          (by
            intro a ha p hp hap
            rcases List.mem_append.mp hp with h1 | h1
            · exact hconsu a (by simp [ha]) p h1 hap
            · have hp2 : p = (rc.author, upk) := by simpa using h1
              subst hp2
              exact hcons a (by simp [ha]) rc (by simp) hap)
          (by simpa using hnd.of_cons)
          (by
            intro d hd
            rcases List.mem_append.mp hd with h1 | h1
            · refine hpresB d.1 lt.id d.2 (hdisj d h1 rc (by simp)) ?_
              rw [hcU]
              exact hdone d h1
            · have hd2 : d = (rc, upk) := by simpa using h1
              subst hd2
              exact hestB)
          (by
            intro d hd a ha
            rcases List.mem_append.mp hd with h1 | h1
            · exact hdisj d h1 a (by simp [ha])
            · have hd2 : d = (rc, upk) := by simpa using h1
              subst hd2
              have := (List.nodup_cons.mp hnd).1
              intro hcontra
              exact this (List.mem_map.mpr ⟨a, ha, hcontra.symm⟩))
          hgo
        obtain ⟨hwf', ht', he', humap', hdone', hrest'⟩ := hih
        refine ⟨hwf', by rw [ht', htB, htU], by rw [he', heB, heU], ?_, ?_, ?_⟩
        · intro p hp
          exact humap' p (by simp [hp])
        · intro d hd
          exact hdone' d (by simp [hd])
        · intro a ha
          rcases List.mem_cons.mp ha with h1 | h1
          · subst h1
            refine ⟨upk, ?_, ?_⟩
            · exact humap' (a.author, upk) (by simp)
            · exact hdone' (a, upk) (by simp)
          · exact hrest' a h1

/-- Replay: running the `sync_comments` loop over remote comments whose
user and comment rows are all settled leaves the database untouched. -/
theorem sync_comments_go_replay (env : Env) (lt : TicketRow) :
    ∀ (rem : List RemoteComment) (s : DB) (umap : List (RemoteZendeskUser × Int))
      (acc : List CommentRow),
      DB.wf s →
      UmapSettled env s.users umap →
      (∀ rc ∈ rem, ∃ apk, UserSettled env s.users rc.author apk ∧
        CommentSettled s.comments rc lt.id apk) →
      ∃ cs, sync_comments_go env lt s umap rem acc = Except.ok (s, cs) := by
  intro rem
  induction rem with
  | nil =>
    intro s umap acc _ _ _
    exact ⟨acc, rfl⟩
  | cons rc rest ih =>
    intro s umap acc hwf humap hsettled
    obtain ⟨apk, hus, hcs⟩ := hsettled rc (by simp)
    unfold sync_comments_go
    cases hassoc : assocUser umap rc.author with
    | some pk =>
      have hmem := assocUser_mem umap rc.author pk hassoc
      have hus2 := humap _ hmem
      have hpk : pk = apk := user_settled_unique env s.users rc.author pk apk hus2 hus
      subst hpk
      have hra : resolve_author env s umap rc.author = (s, pk, umap) := by
        unfold resolve_author
        rw [hassoc]
      rw [hra]
      dsimp only
      obtain ⟨c, hcu⟩ := comment_upsert_noop s rc lt.id pk hwf.2.2.2.2.2 hcs
      rw [hcu]
      dsimp only
      exact ih s umap (acc ++ [c]) hwf humap
        (fun a ha => hsettled a (by simp [ha]))
    | none =>
      obtain ⟨u, huu, huid⟩ := local_zd_user_upsert_noop env s rc.author apk
        hwf.2.1 hus
      have hra : resolve_author env s umap rc.author = (s, apk, umap ++ [(rc.author, apk)]) := by
        unfold resolve_author
        rw [hassoc, huu]
        dsimp only
        rw [huid]
      rw [hra]
      dsimp only
      obtain ⟨c, hcu⟩ := comment_upsert_noop s rc lt.id apk hwf.2.2.2.2.2 hcs
      rw [hcu]
      dsimp only
      refine ih s (umap ++ [(rc.author, apk)]) (acc ++ [c]) hwf ?_
        (fun a ha => hsettled a (by simp [ha]))
      intro p hp
      rcases List.mem_append.mp hp with h1 | h1
      · exact humap p h1
      · have hp2 : p = (rc.author, apk) := by simpa using h1
        subst hp2
        exact hus

/-- C5: syncing the same remote ticket twice with unchanged remote state
is idempotent.  Under a well-formed database with no local row for the
ticket yet, and remote data that is self-consistent (remote comment ids
pairwise distinct, equal remote user ids denote equal user records), a
first successful `sync_ticket_id` returns `created = true`, and running
`sync_ticket_id` again returns `created = false` with the identical
ticket row and the identical database state — in particular the Comment
table is exactly the one the first call left, so the second call creates
no duplicate Comment rows and changes no field values. -/
theorem sync_ticket_id_idempotent (env : Env) (s0 : DB) (tid : Int) (rt : RemoteTicket)
    (s1 : DB) (t1 : TicketRow) (c1 : Bool)
    (hrt : env.remoteTickets.find? (fun t => t.id == tid) = some rt)
    (hwf : DB.wf s0)
    (hnew : ∀ t ∈ s0.tickets, t.zendesk_id ≠ rt.id)
    (hids : ((env.remoteComments rt.id).map (fun rc => rc.id)).Nodup)
    (hauth : ∀ rc ∈ env.remoteComments rt.id, ∀ rc' ∈ env.remoteComments rt.id,
      rc.author.id = rc'.author.id → rc.author = rc'.author)
    (hreq : ∀ rc ∈ env.remoteComments rt.id, rc.author.id = rt.requester.id →
      rc.author = rt.requester)
    (h1 : sync_ticket_id env s0 tid = Except.ok (s1, t1, c1)) :
    c1 = true ∧ sync_ticket_id env s1 tid = Except.ok (s1, t1, false) := by
  unfold sync_ticket_id at h1 ⊢
  rw [hrt] at h1 ⊢
  dsimp only at h1 ⊢
  unfold sync_ticket at h1
  dsimp only at h1
  have hufacts := local_zd_user_upsert_facts env s0 rt.requester hwf
  set rU := update_or_create_local_zd_user_for_remote_zd_user env s0 rt.requester
    with hrU
  obtain ⟨hwfU, htU, hcU, heU, hsetU, _⟩ := hufacts
  have hnone : rU.1.tickets.find? (fun v => v.zendesk_id == rt.id) = none := by
    rw [htU]
    exact List.find?_eq_none.mpr (fun x hx => by simpa using hnew x hx)
  cases hup : update_or_create_ticket rU.1 rt.id rU.2.id rt.subject rt.description rt.url
      (map_remote_status rt.status) rt.custom_fields rt.tags rt.created_at rt.updated_at with
  | error e =>
    rw [hup] at h1
    exact absurd h1 (by simp)
  | ok r2 =>
    rw [hup] at h1
    dsimp only at h1
    obtain ⟨sT, newT, cT⟩ := r2
    dsimp only at h1
    obtain ⟨v, hv, hnewT, hsT, hcT⟩ :=
      ticket_upsert_create_facts rU.1 rt rU.2.id sT newT cT hnone hup
    have hwfT : DB.wf sT :=
      ticket_upsert_wf rU.1 rt.id rU.2.id rt.subject rt.description rt.url
        (map_remote_status rt.status) rt.custom_fields rt.tags rt.created_at rt.updated_at
        sT newT cT hwfU hup
    have hsetT : TicketSettled sT.tickets rt rU.2.id newT := by
      rw [hsT]
      exact ticket_settled_of_rows rU.1.tickets rt rU.2.id newT hnone
        (by rw [hnewT]) (by rw [hnewT]) (by rw [hnewT]) (by rw [hnewT]) (by rw [hnewT])
        (by rw [hnewT, hv]) (by rw [hnewT]) (by rw [hnewT]) (by rw [hnewT]) (by rw [hnewT])
    have hTusers : sT.users = rU.1.users := by rw [hsT]
    have hTcomments : sT.comments = rU.1.comments := by rw [hsT]
    have hnewTreq : newT.requester = rU.2.id := by rw [hnewT]
    unfold sync_comments at h1
    cases hgo : sync_comments_go env newT sT [(rt.requester, newT.requester)]
        (env.remoteComments rt.id) [] with
    | error e =>
      rw [hgo] at h1
      exact absurd h1 (by simp)
    | ok res =>
      rw [hgo] at h1
      dsimp only at h1
      simp only [Except.ok.injEq, Prod.mk.injEq] at h1
      obtain ⟨hs1, ht1, hc1⟩ := h1
      subst hs1
      subst ht1
      refine ⟨hc1 ▸ hcT, ?_⟩
      have humapT : UmapSettled env sT.users [(rt.requester, newT.requester)] := by
        intro p hp
        have hp2 : p = (rt.requester, newT.requester) := by simpa using hp
        subst hp2
        rw [hTusers, hnewTreq]
        exact hsetU
      have hfwd := sync_comments_go_forward env newT (env.remoteComments rt.id) sT
        [(rt.requester, newT.requester)] [] [] res.1 res.2 hwfT humapT hauth
        (by
          intro rc hrc p hp hid
          have hp2 : p = (rt.requester, newT.requester) := by simpa using hp
          subst hp2
          exact hreq rc hrc hid)
        hids (by simp) (by simp) hgo
      obtain ⟨hwf1, ht1eq, he1eq, humap1, _, hsettled1⟩ := hfwd
      -- second call
      obtain ⟨u, huu2, huid⟩ := local_zd_user_upsert_noop env res.1 rt.requester
        (newT.requester) hwf1.2.1
        (humap1 (rt.requester, newT.requester) (by simp))
      have hsetT1 : TicketSettled res.1.tickets rt u.id newT := by
        rw [ht1eq, huid, hnewTreq]
        exact hsetT
      have hticknoop := ticket_upsert_noop res.1 rt u.id newT v hwf1.2.2.2.1 hv hsetT1
      have hrep := sync_comments_go_replay env newT (env.remoteComments rt.id) res.1
        [(rt.requester, newT.requester)] [] hwf1 humap1
        (by
          intro rc hrc
          exact hsettled1 rc hrc)
      obtain ⟨cs2, hgo2⟩ := hrep
      unfold sync_ticket
      dsimp only
      rw [huu2]
      dsimp only
      rw [hticknoop]
      dsimp only
      unfold sync_comments
      rw [hgo2]

/-- Witness for C5: both syncs evaluated at a concrete remote ticket with
one comment; the second call, derived through the idempotence theorem,
returns `created = false` with the identical ticket row and the identical
database (hence no duplicate comment row). -/
theorem sync_ticket_id_idempotent_witness :
    sync_ticket_id envW db0 43 = Except.ok (s1W, t1W, true) ∧
    sync_ticket_id envW s1W 43 = Except.ok (s1W, t1W, false) :=
  ⟨by decide,
   (sync_ticket_id_idempotent envW db0 43 rtW s1W t1W true (by decide) (by decide)
     (by decide) (by decide) (by decide) (by decide) (by decide)).2⟩

end Zengo

